import Mathlib

/-!
Verification of the smart-contract evaluation pipeline
(`scripts/security_score.py`, `scripts/retest_manager.py`,
`scripts/aggregate_metrics.py`) against its natural-language specification.

The Python scripts are shallowly embedded: every function that the claims
touch is translated into an executable Lean definition.  Conventions:

* Python exceptions that escape a function are modelled by `Option`
  (a `none` result means the Python code raises).
* Decoded JSON documents are modelled by the inductive type `JsonV`;
  JSON numbers are modelled by `Int` (no claim involves fractional values
  inside a report), `json.loads` / `json.dumps` themselves are library
  code and are passed in as explicit function parameters.
* Python string operations (`strip`, `lower`, `capitalize`, `in`,
  `startswith`, `splitlines`) are modelled over their ASCII fragment;
  the exotic Unicode cases are never exercised by the scripts' inputs.
* `float` arithmetic of the coverage computation is modelled with exact
  rationals; `round(x, 2)` is modelled as round-half-to-even at two
  decimals, which agrees with Python on every value appearing in a claim.
-/

namespace SmartSecEval

/-- ASCII whitespace, as stripped by Python `str.strip` and matched by the
regex class `\s` (space, tab, newline, carriage return, vertical tab,
form feed). -/
def isPySpace (c : Char) : Bool :=
  c == ' ' || c == '\t' || c == '\n' || c == '\r' ||
  c == Char.ofNat 11 || c == Char.ofNat 12

/-- Python `str.strip()` (ASCII whitespace fragment). -/
def pyStrip (s : String) : String :=
  String.mk (((s.data.dropWhile isPySpace).reverse.dropWhile isPySpace).reverse)

/-- Python `str.lower()` (ASCII fragment). -/
def pyLower (s : String) : String :=
  String.mk (s.data.map Char.toLower)

/-- Python `str.capitalize()`: first character uppercased, the remainder
lowercased (ASCII fragment). -/
def pyCapitalize (s : String) : String :=
  match s.data with
  | [] => ""
  | c :: cs => String.mk (Char.toUpper c :: cs.map Char.toLower)

/-- `listStarts hay needle`: `needle` occurs at the front of `hay`. -/
def listStarts : List Char → List Char → Bool
  | _, [] => true
  | [], _ :: _ => false
  | a :: as, b :: bs => a == b && listStarts as bs

/-- Python substring containment `needle in hay` on character lists. -/
def listHasSub : List Char → List Char → Bool
  | [], needle => needle.isEmpty
  | a :: t, needle => listStarts (a :: t) needle || listHasSub t needle

/-- Python `needle in hay` for strings. -/
def strHasSub (hay needle : String) : Bool :=
  listHasSub hay.data needle.data

/-- Python `hay.startswith(pre)`. -/
def strStarts (hay pre : String) : Bool :=
  listStarts hay.data pre.data

/-! ## Decoded JSON documents -/

/-- A decoded JSON document (the result of `json.load`/`json.loads`).
Objects keep their key/value pairs as a list; duplicate keys may occur in
the raw text, in which case Python's decoder keeps the last value, which
is what `lookupLast` below implements. -/
inductive JsonV where
  | null : JsonV
  | bool (b : Bool) : JsonV
  | num (n : Int) : JsonV
  | str (s : String) : JsonV
  | arr (elems : List JsonV) : JsonV
  | obj (fields : List (String × JsonV)) : JsonV

/-- Python truthiness of a decoded JSON value. -/
def truthy : JsonV → Bool
  | .null => false
  | .bool b => b
  | .num n => n != 0
  | .str s => s != ""
  | .arr xs => !xs.isEmpty
  | .obj kvs => !kvs.isEmpty

/-- Dictionary lookup with last-duplicate-wins, matching `json.loads`. -/
def lookupLast (kvs : List (String × JsonV)) (k : String) : Option JsonV :=
  match kvs with
  | [] => none
  | (k', v) :: rest =>
      match lookupLast rest k with
      | some r => some r
      | none => if k' = k then some v else none

/-- Python `k in d` for a decoded object's fields. -/
def hasKey (kvs : List (String × JsonV)) (k : String) : Bool :=
  kvs.any (fun kv => kv.1 == k)

/-- Iteration order of a Python dict's keys: first occurrence order,
duplicates collapsed. -/
def pyKeys (kvs : List (String × JsonV)) : List String :=
  kvs.foldl (fun acc kv => if acc.contains kv.1 then acc else acc ++ [kv.1]) []

/-- Python `d.items()` for a decoded object. -/
def pyItems (kvs : List (String × JsonV)) : List (String × JsonV) :=
  (pyKeys kvs).map (fun k => (k, (lookupLast kvs k).getD .null))

/-- Python `d.get(k)`: `none` models the `AttributeError` raised when the
receiver is not a dict; a missing key yields JSON null (Python `None`). -/
def jget? (v : JsonV) (k : String) : Option JsonV :=
  match v with
  | .obj kvs => some ((lookupLast kvs k).getD .null)
  | _ => none

/-- Python `d.get(k, dflt)`. -/
def jgetD (v : JsonV) (k : String) (dflt : JsonV) : Option JsonV :=
  match v with
  | .obj kvs => some ((lookupLast kvs k).getD dflt)
  | _ => none

/-- Python `a or b` for decoded JSON values. -/
def pyOrJ (a b : JsonV) : JsonV :=
  if truthy a then a else b

/-! ## retest_manager.py: triage classification -/

/-- The CRITICAL keyword list of `classify_issue` (retest_manager.py:45). -/
def criticalKeywords : List String :=
  ["reentrancy", "access control", "authorization", "authoriz", "overflow",
   "underflow", "auth bypass", "ownership", "unauthorized"]

/-- The MEDIUM keyword list of `classify_issue` (retest_manager.py:47). -/
def mediumKeywords : List String :=
  ["timestamp", "equality", "pragma", "version", "block.timestamp",
   "== 0", "!= 0"]

/-- `classify_issue` (retest_manager.py:43-49): lowercase the message and
return the first triage bucket whose keyword list has a hit. -/
def classify_issue (msg : String) : String :=
  let s := pyLower msg
  if criticalKeywords.any (fun k => strHasSub s k) then "CRITICAL"
  else if mediumKeywords.any (fun k => strHasSub s k) then "MEDIUM"
  else "MINOR"

/-! ## retest_manager.py: report analysis and the retest plan -/

/-- The triage summary dict: bucket name to list of report basenames. -/
abbrev Summary := List (String × List String)

/-- The summary dict as initialised at retest_manager.py:71. -/
def emptySummary : Summary :=
  [("CRITICAL", []), ("MEDIUM", []), ("MINOR", [])]

/-- `summary[k].append(nm)`: append `nm` to the bucket named `k`
(no-op on a missing key never happens for the three fixed buckets). -/
def bucketAppend : Summary → String → String → Summary
  | [], _, _ => []
  | (k', v) :: rest, k, nm =>
      if k' = k then (k', v ++ [nm]) :: rest
      else (k', v) :: bucketAppend rest k nm

/-- One iteration of the loop in `analyze_reports` (retest_manager.py:72-81).
An entry is a pair of the report's basename and the decoded JSON
(`none` when opening/decoding raised, the `except` branch).  `ser` stands
for the library call `json.dumps`. -/
def analyzeStep (ser : JsonV → String) (s : Summary)
    (e : String × Option JsonV) : Summary :=
  match e.2 with
  | some d => bucketAppend s (classify_issue (ser d)) e.1
  | none => bucketAppend s "MINOR" e.1

/-- `analyze_reports` (retest_manager.py:68-82), as a function of the list
of discovered report files (basename and decode result). -/
def analyze_reports (ser : JsonV → String)
    (entries : List (String × Option JsonV)) : Summary :=
  entries.foldl (analyzeStep ser) emptySummary

/-- The retest plan artifact (`plan` dict of retest_manager.py:86-92). -/
structure RetestPlan where
  timestamp : String
  results_dir : String
  severity_counts : List (String × Nat)
  files : Summary
  recommended_actions : List String
deriving DecidableEq

/-- The full seven-action set (retest_manager.py:95-103). -/
def fullActions : List String :=
  ["run_slither", "run_mythril", "forge_test", "measure_tte",
   "measure_tte_improved", "aggregate_metrics", "plot_metrics"]

/-- The analysis-only action set (retest_manager.py:105-109). -/
def analysisActions : List String :=
  ["run_slither", "run_mythril", "aggregate_metrics"]

/-- `write_retest_plan` (retest_manager.py:85-117), minus the file write.
`summary["CRITICAL"]` / `summary["MEDIUM"]` raise `KeyError` on a missing
key, modelled by `none`; `summary["MEDIUM"]` is only evaluated when the
CRITICAL bucket is empty, exactly as in Python. -/
def write_retest_plan (ts dir : String) (s : Summary) : Option RetestPlan := do
  let crit ← List.lookup "CRITICAL" s
  let actions ←
    if crit.isEmpty then do
      let med ← List.lookup "MEDIUM" s
      pure (if med.isEmpty then ([] : List String) else analysisActions)
    else
      pure fullActions
  pure { timestamp := ts
         results_dir := dir
         severity_counts := s.map (fun kv => (kv.1, kv.2.length))
         files := s
         recommended_actions := actions }

/-- The basenames that `analyze_reports` puts in the CRITICAL bucket. -/
def critBucket (ser : JsonV → String)
    (entries : List (String × Option JsonV)) : List String :=
  entries.filterMap (fun e =>
    match e.2 with
    | some d => if classify_issue (ser d) = "CRITICAL" then some e.1 else none
    | none => none)

/-- The basenames that `analyze_reports` puts in the MEDIUM bucket. -/
def medBucket (ser : JsonV → String)
    (entries : List (String × Option JsonV)) : List String :=
  entries.filterMap (fun e =>
    match e.2 with
    | some d => if classify_issue (ser d) = "MEDIUM" then some e.1 else none
    | none => none)

/-- The basenames that `analyze_reports` puts in the MINOR bucket:
reports classified MINOR plus every report that failed to parse. -/
def minorBucket (ser : JsonV → String)
    (entries : List (String × Option JsonV)) : List String :=
  entries.filterMap (fun e =>
    match e.2 with
    | some d => if classify_issue (ser d) = "MINOR" then some e.1 else none
    | none => some e.1)

/-! ## security_score.py: the canonical finding model -/

/-- One row of the normalized issues table (security_score.py:10-11).
Every claim only concerns reports whose relevant fields are strings or
absent, so the cells are modelled as strings. -/
structure Finding where
  timestamp : String
  tool : String
  contract : String
  issue_type : String
  severity : String
  description : String
deriving DecidableEq, Repr

/-- The severity chain of `norm_sev` for a string input that passed the
truthiness test (security_score.py:67-76). -/
def norm_sev_str (s : String) : String :=
  let t := pyLower (pyStrip s)
  if t = "critical" || t = "very high" then "Critical"
  else if t = "high" then "High"
  else if t = "medium" then "Medium"
  else if t = "low" || t = "info" || t = "informational" || t = "warning" then
    pyCapitalize t
  else pyCapitalize t

/-- `norm_sev` (security_score.py:64-76) on a decoded JSON value: falsy
input yields "Unknown"; a truthy string is normalized; a truthy
non-string raises `AttributeError` at `.strip()` (modelled by `none`). -/
def norm_sev (v : JsonV) : Option String :=
  if truthy v then
    match v with
    | .str s => some (norm_sev_str s)
    | _ => none
  else some "Unknown"

/-- `os.path.basename` (POSIX): everything after the last slash. -/
def pyBasename (p : String) : String :=
  String.mk ((p.data.reverse.takeWhile (fun c => c != '/')).reverse)

/-- `os.path.splitext` (POSIX): split at the last dot, provided it comes
after the last slash and some earlier character of the basename is not a
dot. -/
def pySplitExt (p : String) : String × String :=
  let cs := p.data
  let n := cs.length
  let sepIdx : Option Nat :=
    (cs.reverse.findIdx? (fun c => c == '/')).map (fun j => n - 1 - j)
  let dotIdx : Option Nat :=
    (cs.reverse.findIdx? (fun c => c == '.')).map (fun j => n - 1 - j)
  match dotIdx with
  | none => (p, "")
  | some di =>
      let start := match sepIdx with
        | none => 0
        | some si => si + 1
      if start ≤ di then
        let base := (cs.drop start).take (di - start)
        if base.any (fun c => c != '.') then
          (String.mk (cs.take di), String.mk (cs.drop di))
        else (p, "")
      else (p, "")

/-- `extract_contract_from_path` (security_score.py:79-82). -/
def extract_contract_from_path (path : String) : String :=
  (pySplitExt (pyBasename path)).1

/-! ## security_score.py: report parsers

Iterating a truthy non-list value in these loops either raises at once
(numbers are not iterable) or yields a string element whose `.get` raises
on the first loop iteration, so the parser raises in every such case;
`asIterList` therefore maps every non-array to `none`.  Falsy values never
reach it because of the preceding `or []`. -/

def asIterList (v : JsonV) : Option (List JsonV) :=
  match v with
  | .arr xs => some xs
  | _ => none

/-- The value of a decoded field when Python stores it in a string cell;
a truthy non-string would be stored as-is by pandas, a case no claim
touches and which the well-formedness hypotheses below exclude. -/
def asStr (v : JsonV) : Option String :=
  match v with
  | .str s => some s
  | _ => none

/-- `sequence`/`map` for `Option`, used for the per-row loops. -/
def optMapList (f : α → Option β) : List α → Option (List β)
  | [] => some []
  | x :: xs => do
      let y ← f x
      let ys ← optMapList f xs
      pure (y :: ys)

/-- The contract-recovery chain of `parse_slither` (security_score.py:104-109):
`(e.get("source_mapping") or {}).get("contract") or e.get("contract") or
extract_contract_from_path(...) or "Unknown"`, with Python's left-to-right
lazy evaluation. -/
def slitherElemContract (e : JsonV) : Option JsonV := do
  let smRaw ← jget? e "source_mapping"
  let sm := pyOrJ smRaw (.obj [])
  let c1 ← jget? sm "contract"
  if truthy c1 then
    pure c1
  else do
    let c2 ← jget? e "contract"
    if truthy c2 then
      pure c2
    else do
      let fn ← jgetD sm "filename" (.str "")
      let fnS ← asStr fn
      let stem := extract_contract_from_path fnS
      pure (if stem = "" then JsonV.str "Unknown" else JsonV.str stem)

/-- The per-detector body of the loop in `parse_slither`
(security_score.py:96-112). -/
def parse_slither_det (ts : String) (d : JsonV) : Option (List Finding) := do
  let checkV ← jget? d "check"
  let titleV ← jget? d "title"
  let issueV := pyOrJ checkV (pyOrJ titleV (.str "Slither finding"))
  let impactV ← jget? d "impact"
  let sevRawV ← jget? d "severity"
  let sevV := pyOrJ impactV (pyOrJ sevRawV (.str "Unknown"))
  let descV ← jget? d "description"
  let descW := pyOrJ descV (.str "")
  let elemsV ← jget? d "elements"
  let elems := pyOrJ elemsV (.arr [])
  let issueS ← asStr issueV
  let descS ← asStr descW
  let sevS ← norm_sev sevV
  let elemList ← asIterList elems
  if elemList.isEmpty then
    pure [⟨ts, "slither", "Unknown", issueS, sevS, descS⟩]
  else
    optMapList (fun e => do
      let cV ← slitherElemContract e
      let cS ← asStr cV
      pure (⟨ts, "slither", cS, issueS, sevS, descS⟩ : Finding)) elemList

/-- `parse_slither` (security_score.py:85-114) on an already-decoded
report (the enclosing try/except covers only file reading and JSON
decoding, which yield an empty table and are not part of any claim). -/
def parse_slither (ts : String) (data : JsonV) : Option (List Finding) := do
  let resRaw ← jget? data "results"
  let res := pyOrJ resRaw (.obj [])
  let detsRaw ← jget? res "detectors"
  let dets := pyOrJ detsRaw (.arr [])
  let detList ← asIterList dets
  let rows ← optMapList (parse_slither_det ts) detList
  pure rows.flatten

/-- The per-issue body of the loop in `parse_mythril`
(security_score.py:127-133). -/
def parse_mythril_issue (ts : String) (i : JsonV) : Option Finding := do
  let titleV ← jget? i "title"
  let swcV ← jget? i "swc-id"
  let issueV := pyOrJ titleV (pyOrJ swcV (.str "Mythril issue"))
  let sevRawV ← jget? i "severity"
  let sevV := pyOrJ sevRawV (.str "Unknown")
  let descV ← jget? i "description"
  let descW := pyOrJ descV (.str "")
  let cV ← jget? i "contract"
  let fV ← jget? i "filename"
  let contractV := pyOrJ cV (pyOrJ fV (.str "Unknown"))
  let cS ← asStr contractV
  let issueS ← asStr issueV
  let descS ← asStr descW
  let sevS ← norm_sev sevV
  pure ⟨ts, "mythril", extract_contract_from_path cS, issueS, sevS, descS⟩

/-- `parse_mythril` (security_score.py:117-135) on an already-decoded
report. -/
def parse_mythril (ts : String) (data : JsonV) : Option (List Finding) := do
  let issuesRaw ← jgetD data "issues" (.arr [])
  let issues := pyOrJ issuesRaw (.arr [])
  let ilist ← asIterList issues
  optMapList (parse_mythril_issue ts) ilist

/-- Python `str.splitlines` over the common line boundaries newline,
carriage return, and CRLF (the exotic Unicode boundaries are never
produced by the tools involved). -/
def pySplitLinesGo : List Char → List Char → List String
  | [], acc => if acc.isEmpty then [] else [String.mk acc.reverse]
  | '\r' :: '\n' :: rest, acc => String.mk acc.reverse :: pySplitLinesGo rest []
  | '\n' :: rest, acc => String.mk acc.reverse :: pySplitLinesGo rest []
  | '\r' :: rest, acc => String.mk acc.reverse :: pySplitLinesGo rest []
  | c :: rest, acc => pySplitLinesGo rest (c :: acc)

def pySplitLines (s : String) : List String := pySplitLinesGo s.data []

/-- The last non-empty line of the content, as selected at
security_score.py:150-151. -/
def lastNonEmptyLine (content : String) : Option String :=
  ((pySplitLines (pyStrip content)).filter (fun ln => pyStrip ln != "")).getLast?

/-- The `data` value computed at security_score.py:143-151.  `decode`
stands for the library call `json.loads`; `none` means the whole-content
decode and the last-line decode both raised, which the enclosing
try/except turns into an empty result. -/
def echidnaData (decode : String → Option JsonV) (content : String) :
    Option JsonV :=
  match decode content with
  | some d => some d
  | none =>
      match lastNonEmptyLine content with
      | none => some (.obj [])
      | some ln => decode ln

/-- The `failures` heuristic of `parse_echidna` (security_score.py:156-164).
`none` models the uncaught `AttributeError` raised by `.keys()` when the
`failedTests` value is truthy but not a dict. -/
def echidnaFailures (data : JsonV) : Option (List String) :=
  match data with
  | .obj kvs =>
      if hasKey kvs "failedTests" then
        match pyOrJ ((lookupLast kvs "failedTests").getD .null) (.obj []) with
        | .obj fkvs => some (pyKeys fkvs)
        | _ => none
      else if hasKey kvs "tests" then
        match (lookupLast kvs "tests").getD .null with
        | .obj tkvs =>
            some ((pyItems tkvs).filterMap (fun kv =>
              match kv.2 with
              | .obj vkvs =>
                  let statusFail :=
                    match (lookupLast vkvs "status").getD .null with
                    | .str s => s == "FAIL"
                    | _ => false
                  if statusFail ||
                      truthy ((lookupLast vkvs "foundCounterexample").getD .null)
                  then some kv.1 else none
              | _ => none))
        | _ => some []
      else some []
  | _ => some []

/-- `parse_echidna` (security_score.py:138-169). -/
def parse_echidna (decode : String → Option JsonV) (ts : String)
    (content : String) : Option (List Finding) :=
  match echidnaData decode content with
  | none => some []
  | some data =>
      match echidnaFailures data with
      | none => none
      | some failures =>
          some (failures.map (fun prop =>
            ⟨ts, "echidna", "Invariants", prop, "Medium",
             "Property failed under fuzzing"⟩))

/-! ## security_score.py: weights and score aggregation -/

/-- The default severity weights (security_score.py:50). -/
def default_weights : List (String × Int) := [("Critical", 5), ("High", 3), ("Medium", 1)]

/-- Python `d[k] = v` on an insertion-ordered dict: replace in place or
append. -/
def dictInsert (m : List (String × Int)) (k : String) (v : Int) :
    List (String × Int) :=
  match m with
  | [] => [(k, v)]
  | (k', v') :: rest =>
      if k' = k then (k', v) :: rest else (k', v') :: dictInsert rest k v

/-- `load_weights` (security_score.py:49-57): the default dict updated
with the decoded weights file (`none` models `FileNotFoundError`). -/
def load_weights (fileData : Option (List (String × Int))) :
    List (String × Int) :=
  match fileData with
  | none => default_weights
  | some entries =>
      entries.foldl (fun m kv => dictInsert m kv.1 kv.2) default_weights

/-- `sev_map` (security_score.py:174): capitalize the keys of the weight
table, later duplicates overwriting earlier values in place. -/
def sevMapOf (w : List (String × Int)) : List (String × Int) :=
  w.foldl (fun m kv => dictInsert m (pyCapitalize kv.1) kv.2) []

/-- The severities that the aggregation counts (the keys of `sev_map`). -/
def sevKeys (w : List (String × Int)) : List String :=
  (sevMapOf w).map (fun kv => kv.1)

/-- The number of findings for a given contract and severity. -/
def countCF (fs : List Finding) (c sev : String) : Nat :=
  (fs.filter (fun f => f.contract == c && f.severity == sev)).length

/-- The penalty sum of `score_row` (security_score.py:185-188). -/
def penalty (sm : List (String × Int)) (cnt : String → Nat) : Int :=
  sm.foldl (fun acc kv => acc + (cnt kv.1 : Int) * kv.2) 0

/-- `score_row` (security_score.py:185-189). -/
def score_row (sm : List (String × Int)) (cnt : String → Nat) : Int :=
  max 0 (100 - penalty sm cnt)

/-- One row of the per-contract score table (security_score.py:193). -/
structure ScoreRow where
  contract : String
  critical : Nat
  high : Nat
  medium : Nat
  securityScore : Int
deriving DecidableEq, Repr

/-- Lexicographic comparison of strings by code point, as used by the
groupby sort. -/
def charListLe : List Char → List Char → Bool
  | [], _ => true
  | _ :: _, [] => false
  | a :: as, b :: bs =>
      if a.toNat < b.toNat then true
      else if b.toNat < a.toNat then false
      else charListLe as bs

def strLeB (a b : String) : Bool := charListLe a.data b.data

def insertSortedStr (x : String) : List String → List String
  | [] => [x]
  | y :: ys => if strLeB x y then x :: y :: ys else y :: insertSortedStr x ys

/-- The distinct contract labels in ascending order, matching the sorted
groupby index. -/
def sortedContracts (xs : List String) : List String :=
  xs.foldl (fun acc c => if acc.contains c then acc else insertSortedStr c acc) []

/-- `aggregate_scores` (security_score.py:172-193): keep only findings
whose severity is a key of `sev_map`, group by contract, count the three
canonical severities and compute the score. -/
def aggregate_scores (fs : List Finding) (w : List (String × Int)) :
    List ScoreRow :=
  let sm := sevMapOf w
  let keys := sm.map (fun kv => kv.1)
  let filtered := fs.filter (fun f => keys.contains f.severity)
  let contracts := sortedContracts (filtered.map (fun f => f.contract))
  contracts.map (fun c =>
    { contract := c
      critical := countCF filtered c "Critical"
      high := countCF filtered c "High"
      medium := countCF filtered c "Medium"
      securityScore := score_row sm (fun sev => countCF filtered c sev) })

/-- The score table produced by `main` (security_score.py:237-244): two
synthetic rows when no findings exist at all, otherwise the aggregation. -/
def scores_table (fs : List Finding) (w : List (String × Int)) :
    List ScoreRow :=
  if fs.isEmpty then
    [⟨"ProductRegistry", 0, 0, 0, 100⟩,
     ⟨"ProductRegistryImproved", 0, 0, 0, 100⟩]
  else aggregate_scores fs w

/-! ## Well-formedness predicates for scanner-A reports

The claims about `parse_slither` quantify over reports whose relevant
fields are strings or absent; these predicates state exactly that. -/

/-- A field value that the `or`-chains can consume without raising and
without storing a non-string cell: either falsy or a string. -/
def strOk (v : JsonV) : Bool :=
  !truthy v ||
    (match v with
     | .str _ => true
     | _ => false)

def elemWF (e : JsonV) : Bool :=
  match e with
  | .obj ekvs =>
      match pyOrJ ((lookupLast ekvs "source_mapping").getD .null) (.obj []) with
      | .obj skvs =>
          let c1 := (lookupLast skvs "contract").getD .null
          let c2 := (lookupLast ekvs "contract").getD .null
          strOk c1 &&
            (truthy c1 ||
              (strOk c2 &&
                (truthy c2 ||
                  (match lookupLast skvs "filename" with
                   | none => true
                   | some (.str _) => true
                   | some _ => false))))
      | _ => false
  | _ => false

def detWF (d : JsonV) : Bool :=
  match d with
  | .obj kvs =>
      strOk ((lookupLast kvs "check").getD .null) &&
      strOk ((lookupLast kvs "title").getD .null) &&
      strOk ((lookupLast kvs "impact").getD .null) &&
      strOk ((lookupLast kvs "severity").getD .null) &&
      strOk ((lookupLast kvs "description").getD .null) &&
      (match pyOrJ ((lookupLast kvs "elements").getD .null) (.arr []) with
       | .arr es => es.all elemWF
       | _ => false)
  | _ => false

def slitherWF (data : JsonV) : Bool :=
  match data with
  | .obj kvs =>
      match pyOrJ ((lookupLast kvs "results").getD .null) (.obj []) with
      | .obj rkvs =>
          match pyOrJ ((lookupLast rkvs "detectors").getD .null) (.arr []) with
          | .arr ds => ds.all detWF
          | _ => false
      | _ => false
  | _ => false

/-! ## Specification-side description of the scanner-A parser (claim C6)

These definitions follow the words of the claim: one finding per element,
the contract recovered as the first non-empty value of the fallback
chain; they are compared with `parse_slither` by the refinement theorem. -/

/-- First non-empty string in the list, else the default. -/
def firstNonEmpty : List String → String → String
  | [], dflt => dflt
  | s :: rest, dflt => if s = "" then firstNonEmpty rest dflt else s

/-- The text of a field as the claim reads it: a string is itself, an
absent or falsy value contributes the empty string. -/
def jTextOf (v : JsonV) : String :=
  match v with
  | .str s => s
  | _ => ""

/-- The contract chain of claim C6: source_mapping.contract, the
element's contract field, the stem of source_mapping.filename, "Unknown". -/
def slitherSpecContract (e : JsonV) : String :=
  match e with
  | .obj ekvs =>
      match pyOrJ ((lookupLast ekvs "source_mapping").getD .null) (.obj []) with
      | .obj skvs =>
          let smC := jTextOf ((lookupLast skvs "contract").getD .null)
          let eC := jTextOf ((lookupLast ekvs "contract").getD .null)
          let fn :=
            match lookupLast skvs "filename" with
            | some (.str s) => s
            | _ => ""
          firstNonEmpty [smC, eC, extract_contract_from_path fn] "Unknown"
      | _ => "Unknown"
  | _ => "Unknown"

/-- The issue label of one detector, per the claim: check, then title,
then the fixed fallback. -/
def slitherDetIssue (kvs : List (String × JsonV)) : String :=
  firstNonEmpty
    [jTextOf ((lookupLast kvs "check").getD .null),
     jTextOf ((lookupLast kvs "title").getD .null)] "Slither finding"

/-- The normalized severity of one detector, per the claim: impact, then
severity, then Unknown, normalized. -/
def slitherDetSev (kvs : List (String × JsonV)) : String :=
  norm_sev_str (firstNonEmpty
    [jTextOf ((lookupLast kvs "impact").getD .null),
     jTextOf ((lookupLast kvs "severity").getD .null)] "Unknown")

/-- The description of one detector. -/
def slitherDetDesc (kvs : List (String × JsonV)) : String :=
  jTextOf ((lookupLast kvs "description").getD .null)

/-- The findings the claim ascribes to one detector: one per element,
or a single "Unknown" finding when the element list is empty. -/
def slitherSpecDet (ts : String) (d : JsonV) : List Finding :=
  match d with
  | .obj kvs =>
      let elems :=
        match pyOrJ ((lookupLast kvs "elements").getD .null) (.arr []) with
        | .arr es => es
        | _ => []
      if elems.isEmpty then
        [⟨ts, "slither", "Unknown", slitherDetIssue kvs, slitherDetSev kvs,
          slitherDetDesc kvs⟩]
      else
        elems.map (fun e =>
          ⟨ts, "slither", slitherSpecContract e, slitherDetIssue kvs,
           slitherDetSev kvs, slitherDetDesc kvs⟩)
  | _ => []

/-- The full finding list the claim ascribes to a scanner-A report. -/
def slitherSpec (ts : String) (data : JsonV) : List Finding :=
  match data with
  | .obj kvs =>
      match pyOrJ ((lookupLast kvs "results").getD .null) (.obj []) with
      | .obj rkvs =>
          match pyOrJ ((lookupLast rkvs "detectors").getD .null) (.arr []) with
          | .arr ds => (ds.map (slitherSpecDet ts)).flatten
          | _ => []
      | _ => []
  | _ => []

/-- The Scenario A report of the specification: one detector with impact
High and one element whose filename is Token.sol. -/
def scenarioAReport : JsonV :=
  .obj [("results", .obj [("detectors", .arr [
    .obj [("check", .str "check1"),
          ("impact", .str "High"),
          ("description", .str "desc"),
          ("elements", .arr [
            .obj [("source_mapping", .obj [("filename", .str "Token.sol")])]])]])])]

/-! ## Whitespace-cleanliness of a report (claim C3)

`norm_sev` maps a non-empty all-whitespace token to the empty string, so
the parsers only guarantee non-empty severities for reports none of whose
string leaves are non-empty and all-whitespace. -/

mutual

def wsCleanJ : JsonV → Bool
  | .str s => s == "" || s.data.any (fun c => !isPySpace c)
  | .arr xs => wsCleanL xs
  | .obj kvs => wsCleanKV kvs
  | _ => true

def wsCleanL : List JsonV → Bool
  | [] => true
  | x :: xs => wsCleanJ x && wsCleanL xs

def wsCleanKV : List (String × JsonV) → Bool
  | [] => true
  | kv :: kvs => wsCleanJ kv.2 && wsCleanKV kvs

end

/-! ## Concrete decode functions for the fuzzer-C parser claims

`json.loads` is library code; these are its restrictions to the concrete
inputs used by the witnesses and the counterexample. -/

/-- `json.loads` restricted to the text `{"failedTests": [0]}` (braces
escaped), on which it returns the object with the list value. -/
def decodeFailedTestsList : String → Option JsonV := fun s =>
  if s = "\x7b\"failedTests\": [0]\x7d" then
    some (.obj [("failedTests", .arr [.num 0])])
  else none

/-- `json.loads` restricted to the text `X` standing for a report whose
failedTests mapping has the single key prop_a. -/
def demoEchidnaDecode : String → Option JsonV := fun s =>
  if s = "X" then some (.obj [("failedTests", .obj [("prop_a", .bool true)])])
  else none

/-! ## aggregate_metrics.py: coverage resolution -/

/-- Digit run with Python's single-underscore separators
(`int("1_0") = 10`). -/
def parseDigitsU : List Char → Nat → Option Nat
  | [], acc => some acc
  | '_' :: c :: rest, acc =>
      if c.isDigit then parseDigitsU rest (acc * 10 + (c.toNat - 48)) else none
  | c :: rest, acc =>
      if c.isDigit then parseDigitsU rest (acc * 10 + (c.toNat - 48)) else none

def parseDigitsStart : List Char → Option Nat
  | [] => none
  | c :: rest =>
      if c.isDigit then parseDigitsU rest (c.toNat - 48) else none

/-- Python `int(s)` over base-10 text: optional surrounding whitespace,
optional sign, digits with optional underscore separators. -/
def pyParseInt (s : String) : Option Int :=
  match (pyStrip s).data with
  | '+' :: rest => (parseDigitsStart rest).map (fun n => (n : Int))
  | '-' :: rest => (parseDigitsStart rest).map (fun n => -(n : Int))
  | rest => (parseDigitsStart rest).map (fun n => (n : Int))

/-- `line.split(":", 1)[1]`. -/
def afterFirstColon (line : String) : String :=
  String.mk ((line.data.dropWhile (fun c => c != ':')).drop 1)

/-- The LF/LH totals of `parse_coverage_lcov` (aggregate_metrics.py:137-149);
the file is consumed line by line, unparsable counters are skipped. -/
def lcovTotals (content : String) : Int × Int :=
  (pySplitLines content).foldl (fun t line =>
    if strStarts line "LF:" then
      match pyParseInt (afterFirstColon line) with
      | some n => (t.1 + n, t.2)
      | none => t
    else if strStarts line "LH:" then
      match pyParseInt (afterFirstColon line) with
      | some n => (t.1, t.2 + n)
      | none => t
    else t) (0, 0)

/-- Python `round` to an integer: round half to even. -/
def roundHalfEven (q : ℚ) : Int :=
  let f := q.floor
  let r := q - (f : ℚ)
  if r < 1/2 then f
  else if 1/2 < r then f + 1
  else if f % 2 = 0 then f else f + 1

/-- Python `round(x, 2)` over exact rationals. -/
def pyRound2 (q : ℚ) : ℚ := (roundHalfEven (q * 100) : ℚ) / 100

/-- `parse_coverage_lcov` (aggregate_metrics.py:128-155) on the file's
content. -/
def parse_coverage_lcov (content : String) : Option ℚ :=
  let t := lcovTotals content
  if 0 < t.1 then some (pyRound2 ((t.2 : ℚ) / (t.1 : ℚ) * 100)) else none

/-- The regex piece `[0-9]+(?:\.[0-9]+)?%` anchored at the given
position, returning the captured number. -/
def matchNumPct (cs : List Char) : Option (List Char) :=
  let ds := cs.takeWhile Char.isDigit
  if ds.isEmpty then none
  else
    match cs.drop ds.length with
    | '%' :: _ => some ds
    | '.' :: rest2 =>
        let fs := rest2.takeWhile Char.isDigit
        if fs.isEmpty then none
        else
          match rest2.drop fs.length with
          | '%' :: _ => some (ds ++ '.' :: fs)
          | _ => none
    | _ => none

/-- `re.search` for a pattern `<literal>\s*([0-9]+(?:\.[0-9]+)?)%` over
already-lowercased text: leftmost occurrence wins. -/
def kwNumSearchAux (kw : List Char) : List Char → Option (List Char)
  | [] => none
  | c :: t =>
      if listStarts (c :: t) kw then
        match matchNumPct (((c :: t).drop kw.length).dropWhile isPySpace) with
        | some num => some num
        | none => kwNumSearchAux kw t
      else kwNumSearchAux kw t

/-- The lazy `.*?` of the Overall pattern: try the number at each
position without crossing a newline (`.` does not match newlines). -/
def scanSameLine : List Char → Option (List Char)
  | [] => none
  | c :: t =>
      match matchNumPct (c :: t) with
      | some n => some n
      | none => if c == '\n' then none else scanSameLine t

/-- `re.search` for `Overall.*?([0-9]+(?:\.[0-9]+)?)%`. -/
def overallSearchAux : List Char → Option (List Char)
  | [] => none
  | c :: t =>
      if listStarts (c :: t) ("overall".data) then
        match scanSameLine ((c :: t).drop 7) with
        | some n => some n
        | none => overallSearchAux t
      else overallSearchAux t

/-- `float` of a captured group of shape digits(.digits)?, exactly. -/
def groupToRat (cs : List Char) : ℚ :=
  let ip := cs.takeWhile Char.isDigit
  let n : Nat := ip.foldl (fun acc c => acc * 10 + (c.toNat - 48)) 0
  match cs.drop ip.length with
  | '.' :: ds =>
      let m : Nat := ds.foldl (fun acc c => acc * 10 + (c.toNat - 48)) 0
      (n : ℚ) + (m : ℚ) / ((10 : ℚ) ^ ds.length)
  | _ => (n : ℚ)

/-- `parse_coverage_summary` (aggregate_metrics.py:98-125): the four
patterns tried in order, first match wins, case-insensitively. -/
def parse_coverage_summary (content : String) : Option ℚ :=
  let low := (pyLower content).data
  match kwNumSearchAux ("statements:".data) low with
  | some g => some (groupToRat g)
  | none =>
      match kwNumSearchAux ("lines:".data) low with
      | some g => some (groupToRat g)
      | none =>
          match kwNumSearchAux ("coverage:".data) low with
          | some g => some (groupToRat g)
          | none => (overallSearchAux low).map groupToRat

/-- The coverage resolution of `main` (aggregate_metrics.py:188-196):
prefer the LCOV-derived figure when an LCOV trace exists, fall back to
the text summary when it yields nothing. -/
def resolve_coverage (lcov : Option String) (txt : Option String) :
    Option ℚ :=
  match (match lcov with
         | some content => parse_coverage_lcov content
         | none => none) with
  | some v => some v
  | none =>
      match txt with
      | some t => parse_coverage_summary t
      | none => none

/-! ## Lemmas about triage classification and report analysis -/

lemma classify_cases (m : String) :
    classify_issue m = "CRITICAL" ∨ classify_issue m = "MEDIUM" ∨
    classify_issue m = "MINOR" := by
  by_cases h1 : criticalKeywords.any (fun k => strHasSub (pyLower m) k)
  · exact Or.inl (by simp [classify_issue, h1])
  · by_cases h2 : mediumKeywords.any (fun k => strHasSub (pyLower m) k)
    · exact Or.inr (Or.inl (by simp [classify_issue, h1, h2]))
    · exact Or.inr (Or.inr (by simp [classify_issue, h1, h2]))

lemma analyze_aux (ser : JsonV → String)
    (entries : List (String × Option JsonV)) :
    ∀ c m n : List String,
      List.foldl (analyzeStep ser)
          [("CRITICAL", c), ("MEDIUM", m), ("MINOR", n)] entries
        = [("CRITICAL", c ++ critBucket ser entries),
           ("MEDIUM", m ++ medBucket ser entries),
           ("MINOR", n ++ minorBucket ser entries)] := by
  induction entries with
  | nil => intro c m n; simp [critBucket, medBucket, minorBucket]
  | cons e rest ih =>
      intro c m n
      obtain ⟨nm, od⟩ := e
      simp only [List.foldl_cons]
      cases od with
      | none =>
          have hstep : analyzeStep ser
              [("CRITICAL", c), ("MEDIUM", m), ("MINOR", n)] (nm, none)
              = [("CRITICAL", c), ("MEDIUM", m), ("MINOR", n ++ [nm])] := by
            simp [analyzeStep, bucketAppend]
          rw [hstep, ih]
          simp [critBucket, medBucket, minorBucket, List.filterMap_cons]
      | some d =>
          rcases classify_cases (ser d) with hc | hc | hc
          · have hstep : analyzeStep ser
                [("CRITICAL", c), ("MEDIUM", m), ("MINOR", n)] (nm, some d)
                = [("CRITICAL", c ++ [nm]), ("MEDIUM", m), ("MINOR", n)] := by
              simp [analyzeStep, hc, bucketAppend]
            rw [hstep, ih]
            simp [critBucket, medBucket, minorBucket, List.filterMap_cons, hc]
          · have hstep : analyzeStep ser
                [("CRITICAL", c), ("MEDIUM", m), ("MINOR", n)] (nm, some d)
                = [("CRITICAL", c), ("MEDIUM", m ++ [nm]), ("MINOR", n)] := by
              simp [analyzeStep, hc, bucketAppend]
            rw [hstep, ih]
            simp [critBucket, medBucket, minorBucket, List.filterMap_cons, hc]
          · have hstep : analyzeStep ser
                [("CRITICAL", c), ("MEDIUM", m), ("MINOR", n)] (nm, some d)
                = [("CRITICAL", c), ("MEDIUM", m), ("MINOR", n ++ [nm])] := by
              simp [analyzeStep, hc, bucketAppend]
            rw [hstep, ih]
            simp [critBucket, medBucket, minorBucket, List.filterMap_cons, hc]

lemma analyze_reports_eq (ser : JsonV → String)
    (entries : List (String × Option JsonV)) :
    analyze_reports ser entries
      = [("CRITICAL", critBucket ser entries),
         ("MEDIUM", medBucket ser entries),
         ("MINOR", minorBucket ser entries)] := by
  have h := analyze_aux ser entries [] [] []
  simpa [analyze_reports, emptySummary] using h

lemma write_retest_plan_eq (ts dir : String) (ser : JsonV → String)
    (entries : List (String × Option JsonV)) :
    write_retest_plan ts dir (analyze_reports ser entries) = some
      { timestamp := ts
        results_dir := dir
        severity_counts :=
          [("CRITICAL", (critBucket ser entries).length),
           ("MEDIUM", (medBucket ser entries).length),
           ("MINOR", (minorBucket ser entries).length)]
        files := analyze_reports ser entries
        recommended_actions :=
          if (critBucket ser entries).isEmpty then
            (if (medBucket ser entries).isEmpty then [] else analysisActions)
          else fullActions } := by
  rw [analyze_reports_eq]
  by_cases h1 : critBucket ser entries = [] <;>
    by_cases h2 : medBucket ser entries = [] <;>
      simp [write_retest_plan, List.lookup, List.isEmpty_iff, h1, h2]

/-! ## Claim C5: triage classification is a first-match priority function -/

/-- C5: `classify_issue` is a first-match priority function over the
lower-cased input text: a CRITICAL keyword hit yields CRITICAL regardless
of anything else; otherwise a MEDIUM keyword hit yields MEDIUM; otherwise
MINOR; in particular a text containing both a CRITICAL and a MEDIUM
keyword classifies as CRITICAL. -/
theorem C5_classify_first_match (msg : String) :
    ((∃ k ∈ criticalKeywords, strHasSub (pyLower msg) k = true) →
      classify_issue msg = "CRITICAL")
    ∧ ((¬ ∃ k ∈ criticalKeywords, strHasSub (pyLower msg) k = true) →
        (∃ k ∈ mediumKeywords, strHasSub (pyLower msg) k = true) →
        classify_issue msg = "MEDIUM")
    ∧ ((¬ ∃ k ∈ criticalKeywords, strHasSub (pyLower msg) k = true) →
        (¬ ∃ k ∈ mediumKeywords, strHasSub (pyLower msg) k = true) →
        classify_issue msg = "MINOR")
    ∧ (∀ kc ∈ criticalKeywords, ∀ km ∈ mediumKeywords,
        strHasSub (pyLower msg) kc = true → strHasSub (pyLower msg) km = true →
        classify_issue msg = "CRITICAL") := by
  have hiff : ∀ l : List String,
      (l.any (fun k => strHasSub (pyLower msg) k) = true) ↔
        ∃ k ∈ l, strHasSub (pyLower msg) k = true := by
    intro l; simp [List.any_eq_true]
  refine ⟨?_, ?_, ?_, ?_⟩
  · intro hex
    have h1 : criticalKeywords.any (fun k => strHasSub (pyLower msg) k) = true :=
      (hiff _).mpr hex
    simp [classify_issue, h1]
  · intro hno hex
    have h1 : criticalKeywords.any (fun k => strHasSub (pyLower msg) k) = false := by
      rcases h : criticalKeywords.any (fun k => strHasSub (pyLower msg) k) with _ | _
      · rfl
      · exact absurd ((hiff _).mp h) hno
    have h2 : mediumKeywords.any (fun k => strHasSub (pyLower msg) k) = true :=
      (hiff _).mpr hex
    simp [classify_issue, h1, h2]
  · intro hno1 hno2
    have h1 : criticalKeywords.any (fun k => strHasSub (pyLower msg) k) = false := by
      rcases h : criticalKeywords.any (fun k => strHasSub (pyLower msg) k) with _ | _
      · rfl
      · exact absurd ((hiff _).mp h) hno1
    have h2 : mediumKeywords.any (fun k => strHasSub (pyLower msg) k) = false := by
      rcases h : mediumKeywords.any (fun k => strHasSub (pyLower msg) k) with _ | _
      · rfl
      · exact absurd ((hiff _).mp h) hno2
    simp [classify_issue, h1, h2]
  · intro kc hkc km hkm hc _
    have h1 : criticalKeywords.any (fun k => strHasSub (pyLower msg) k) = true :=
      (hiff _).mpr ⟨kc, hkc, hc⟩
    simp [classify_issue, h1]

/-- Witness for C5 at a concrete text containing a CRITICAL keyword
("reentrancy") and a MEDIUM keyword ("block.timestamp"). -/
theorem C5_witness :
    classify_issue "Reentrancy influenced by block.timestamp" = "CRITICAL" := by
  exact (C5_classify_first_match "Reentrancy influenced by block.timestamp").2.2.2
    "reentrancy" (by decide) "block.timestamp" (by decide) (by decide) (by decide)

/-! ## Claim C2: the retest plan's recommended actions -/

/-- C2: the retest plan's `recommended_actions` is exactly the full
seven-action set whenever the CRITICAL bucket is non-empty, exactly the
three-action analysis-only set whenever the MEDIUM bucket is non-empty and
the CRITICAL one is empty, and empty otherwise; for an empty
vulnerability-report directory the actions are empty and all severity
counts are zero. -/
theorem C2_retest_actions (ser : JsonV → String)
    (entries : List (String × Option JsonV)) (ts dir : String) :
    ∃ plan, write_retest_plan ts dir (analyze_reports ser entries) = some plan
      ∧ (critBucket ser entries ≠ [] →
           plan.recommended_actions = fullActions)
      ∧ (critBucket ser entries = [] → medBucket ser entries ≠ [] →
           plan.recommended_actions = analysisActions)
      ∧ (critBucket ser entries = [] → medBucket ser entries = [] →
           plan.recommended_actions = [])
      ∧ (entries = [] → plan.recommended_actions = []
           ∧ plan.severity_counts
               = [("CRITICAL", 0), ("MEDIUM", 0), ("MINOR", 0)]) := by
  refine ⟨_, write_retest_plan_eq ts dir ser entries, ?_, ?_, ?_, ?_⟩
  · intro h1
    simp [List.isEmpty_iff, h1]
  · intro h1 h2
    simp [List.isEmpty_iff, h1, h2]
  · intro h1 h2
    simp [List.isEmpty_iff, h1, h2]
  · rintro rfl
    refine ⟨by simp [critBucket, medBucket, List.isEmpty_iff], ?_⟩
    simp [critBucket, medBucket, minorBucket]

/-- Witness for C2: one CRITICAL-classified report yields the full action
set; the serializer stands in for `json.dumps`. -/
theorem C2_witness :
    (write_retest_plan "t" "d" (analyze_reports (fun _ => "reentrancy")
        [("a.json", some JsonV.null)])).map RetestPlan.recommended_actions
      = some fullActions := by
  obtain ⟨plan, hw, hcrit, -, -, -⟩ :=
    C2_retest_actions (fun _ => "reentrancy") [("a.json", some JsonV.null)] "t" "d"
  rw [hw]
  simp [hcrit (by decide)]

/-! ## Claim C10: shape of the triage summary, unreadable reports -/

/-- C10: the triage summary always has exactly the keys CRITICAL, MEDIUM,
MINOR; each severity count equals the length of the same bucket's file
list; a report that fails to parse lands in the MINOR bucket with its
filename listed; and when every report is unreadable the recommended
actions are empty. -/
theorem C10_analyze_shape (ser : JsonV → String)
    (entries : List (String × Option JsonV)) (ts dir : String) :
    (analyze_reports ser entries).map Prod.fst = ["CRITICAL", "MEDIUM", "MINOR"]
    ∧ (∀ plan, write_retest_plan ts dir (analyze_reports ser entries) = some plan →
        plan.severity_counts
          = (analyze_reports ser entries).map (fun kv => (kv.1, kv.2.length)))
    ∧ (∀ nm, (nm, (none : Option JsonV)) ∈ entries →
        nm ∈ (List.lookup "MINOR" (analyze_reports ser entries)).getD [])
    ∧ ((∀ e ∈ entries, e.2 = (none : Option JsonV)) →
        ∃ plan, write_retest_plan ts dir (analyze_reports ser entries) = some plan
          ∧ plan.recommended_actions = []) := by
  refine ⟨?_, ?_, ?_, ?_⟩
  · rw [analyze_reports_eq]; rfl
  · intro plan hplan
    rw [write_retest_plan_eq ts dir ser entries] at hplan
    cases hplan
    rw [analyze_reports_eq]
    rfl
  · intro nm hmem
    rw [analyze_reports_eq]
    simp only [List.lookup, minorBucket]
    refine List.mem_filterMap.mpr ⟨(nm, none), hmem, rfl⟩
  · intro hall
    have h1 : critBucket ser entries = [] := by
      refine List.filterMap_eq_nil_iff.mpr ?_
      intro e he
      rw [hall e he]
    have h2 : medBucket ser entries = [] := by
      refine List.filterMap_eq_nil_iff.mpr ?_
      intro e he
      rw [hall e he]
    refine ⟨_, write_retest_plan_eq ts dir ser entries, ?_⟩
    simp [List.isEmpty_iff, h1, h2]

/-- Witness for C10: a single unreadable report lands in MINOR and yields
no recommended actions. -/
theorem C10_witness :
    "bad.json" ∈ (List.lookup "MINOR" (analyze_reports (fun _ => "")
        [("bad.json", none)])).getD []
    ∧ (write_retest_plan "t" "d" (analyze_reports (fun _ => "")
        [("bad.json", none)])).map RetestPlan.recommended_actions = some [] := by
  obtain ⟨-, -, hminor, hall⟩ :=
    C10_analyze_shape (fun _ => "") [("bad.json", none)] "t" "d"
  refine ⟨hminor "bad.json" (by simp), ?_⟩
  obtain ⟨plan, hw, hact⟩ := hall (by simp)
  rw [hw]
  simp [hact]

/-! ## Lemmas about the weight tables and the score aggregation -/

lemma dictInsert_keys_sub {m : List (String × Int)} {k0 k : String} {v : Int}
    (h : k0 ∈ m.map Prod.fst) : k0 ∈ (dictInsert m k v).map Prod.fst := by
  induction m with
  | nil => simp at h
  | cons kv rest ih =>
      obtain ⟨k', v'⟩ := kv
      by_cases hk : k' = k
      · simpa [dictInsert, hk] using h
      · simp only [List.map_cons, List.mem_cons] at h
        rcases h with h | h
        · simp [dictInsert, hk, h]
        · simp [dictInsert, hk, ih h]

lemma dictInsert_key_mem (m : List (String × Int)) (k : String) (v : Int) :
    k ∈ (dictInsert m k v).map Prod.fst := by
  induction m with
  | nil => simp [dictInsert]
  | cons kv rest ih =>
      obtain ⟨k', v'⟩ := kv
      by_cases hk : k' = k
      · simp [dictInsert, hk]
      · simp [dictInsert, hk, ih]

lemma dictInsert_values {m : List (String × Int)} {k : String} {v : Int}
    {kv0 : String × Int} (h : kv0 ∈ dictInsert m k v) :
    kv0 ∈ m ∨ kv0.2 = v := by
  obtain ⟨a, b⟩ := kv0
  induction m with
  | nil =>
      simp only [dictInsert, List.mem_singleton, Prod.mk.injEq] at h
      exact Or.inr h.2
  | cons kv rest ih =>
      obtain ⟨k', v'⟩ := kv
      by_cases hk : k' = k
      · simp only [dictInsert, if_pos hk, List.mem_cons, Prod.mk.injEq] at h
        rcases h with ⟨h1, h2⟩ | h
        · exact Or.inr h2
        · exact Or.inl (List.mem_cons_of_mem _ h)
      · simp only [dictInsert, if_neg hk, List.mem_cons] at h
        rcases h with h | h
        · exact Or.inl (List.mem_cons.mpr (Or.inl h))
        · rcases ih h with h' | h'
          · exact Or.inl (List.mem_cons_of_mem _ h')
          · exact Or.inr h'

lemma load_keys_mono (es : List (String × Int)) :
    ∀ m, ∀ k0 ∈ m.map Prod.fst,
      k0 ∈ (es.foldl (fun m kv => dictInsert m kv.1 kv.2) m).map Prod.fst := by
  induction es with
  | nil => intro m k0 h; simpa using h
  | cons e rest ih =>
      intro m k0 h
      exact ih _ _ (dictInsert_keys_sub h)

lemma sevMap_keys_mono (es : List (String × Int)) :
    ∀ m, ∀ k0 ∈ m.map Prod.fst,
      k0 ∈ (es.foldl (fun m kv => dictInsert m (pyCapitalize kv.1) kv.2) m).map
        Prod.fst := by
  induction es with
  | nil => intro m k0 h; simpa using h
  | cons e rest ih =>
      intro m k0 h
      exact ih _ _ (dictInsert_keys_sub h)

lemma sevMap_keys_of_mem (es : List (String × Int)) :
    ∀ m, ∀ e ∈ es,
      pyCapitalize e.1 ∈
        (es.foldl (fun m kv => dictInsert m (pyCapitalize kv.1) kv.2) m).map
          Prod.fst := by
  induction es with
  | nil => intro m e he; simp at he
  | cons e' rest ih =>
      intro m e he
      rcases List.mem_cons.mp he with rfl | he
      · exact sevMap_keys_mono rest _ _ (dictInsert_key_mem m (pyCapitalize e.1) e.2)
      · exact ih _ e he

lemma sevMap_values (w : List (String × Int)) :
    ∀ kv ∈ sevMapOf w, ∃ kv' ∈ w, kv.2 = kv'.2 := by
  have haux : ∀ (es : List (String × Int)) (m : List (String × Int)) kv,
      kv ∈ es.foldl (fun m kv => dictInsert m (pyCapitalize kv.1) kv.2) m →
      kv ∈ m ∨ ∃ e ∈ es, kv.2 = e.2 := by
    intro es
    induction es with
    | nil => intro m kv h; exact Or.inl (by simpa using h)
    | cons e rest ih =>
        intro m kv h
        rcases ih _ kv h with h' | h'
        · rcases dictInsert_values h' with h'' | h''
          · exact Or.inl h''
          · exact Or.inr ⟨e, List.mem_cons_self _ _, h''⟩
        · obtain ⟨e', he', hv⟩ := h'
          exact Or.inr ⟨e', List.mem_cons_of_mem _ he', hv⟩
  intro kv h
  rcases haux w [] kv h with h' | h'
  · simp at h'
  · exact h'

lemma mem_sevKeys_load (fd : Option (List (String × Int))) :
    "Critical" ∈ sevKeys (load_weights fd)
    ∧ "High" ∈ sevKeys (load_weights fd)
    ∧ "Medium" ∈ sevKeys (load_weights fd) := by
  have hbase : ∀ fd, "Critical" ∈ (load_weights fd).map Prod.fst
      ∧ "High" ∈ (load_weights fd).map Prod.fst
      ∧ "Medium" ∈ (load_weights fd).map Prod.fst := by
    intro fd
    cases fd with
    | none => refine ⟨?_, ?_, ?_⟩ <;> simp [load_weights, default_weights]
    | some es =>
        refine ⟨?_, ?_, ?_⟩ <;>
          exact load_keys_mono es default_weights _ (by simp [default_weights])
  obtain ⟨h1, h2, h3⟩ := hbase fd
  have hcap : ∀ k0, k0 ∈ (load_weights fd).map Prod.fst →
      pyCapitalize k0 ∈ sevKeys (load_weights fd) := by
    intro k0 hk
    obtain ⟨e, he, hfst⟩ := List.mem_map.mp hk
    have := sevMap_keys_of_mem (load_weights fd) [] e he
    rw [hfst] at this
    exact this
  refine ⟨?_, ?_, ?_⟩
  · have := hcap "Critical" h1
    simpa [show pyCapitalize "Critical" = "Critical" from rfl] using this
  · have := hcap "High" h2
    simpa [show pyCapitalize "High" = "High" from rfl] using this
  · have := hcap "Medium" h3
    simpa [show pyCapitalize "Medium" = "Medium" from rfl] using this

lemma countCF_cons (f : Finding) (fs : List Finding) (c sev : String) :
    countCF (f :: fs) c sev
      = countCF fs c sev
        + (if f.contract == c && f.severity == sev then 1 else 0) := by
  simp only [countCF, List.filter_cons]
  split
  · simp [Nat.add_comm]
  · simp

lemma countCF_filter_eq (keys : List String) (sev : String)
    (hsev : keys.contains sev = true) (fs : List Finding) (c : String) :
    countCF (fs.filter (fun f => keys.contains f.severity)) c sev
      = countCF fs c sev := by
  induction fs with
  | nil => rfl
  | cons f fs ih =>
      rcases h : keys.contains f.severity with _ | _
      · have hne : (f.severity == sev) = false := by
          rcases hs : f.severity == sev with _ | _
          · rfl
          · rw [eq_of_beq hs] at h
            rw [h] at hsev
            exact absurd hsev (by simp)
        rw [List.filter_cons, if_neg (by rw [h]; simp), ih, countCF_cons]
        simp [hne]
      · rw [List.filter_cons, if_pos (by rw [h]), countCF_cons, ih, countCF_cons]

lemma penalty_le_aux (sm : List (String × Int)) (cnt1 cnt2 : String → Nat)
    (hv : ∀ kv ∈ sm, 0 ≤ kv.2) (hc : ∀ k, cnt1 k ≤ cnt2 k) :
    ∀ a1 a2 : Int, a1 ≤ a2 →
      sm.foldl (fun acc kv => acc + (cnt1 kv.1 : Int) * kv.2) a1
        ≤ sm.foldl (fun acc kv => acc + (cnt2 kv.1 : Int) * kv.2) a2 := by
  induction sm with
  | nil => intro a1 a2 h; simpa using h
  | cons kv rest ih =>
      intro a1 a2 h
      simp only [List.foldl_cons]
      refine ih (fun kv' h' => hv kv' (List.mem_cons_of_mem _ h')) _ _ ?_
      have hkv : (0 : Int) ≤ kv.2 := hv kv (List.mem_cons_self _ _)
      have hle : ((cnt1 kv.1 : Int)) * kv.2 ≤ ((cnt2 kv.1 : Int)) * kv.2 :=
        mul_le_mul_of_nonneg_right (by exact_mod_cast hc kv.1) hkv
      omega

lemma penalty_mono (sm : List (String × Int)) (cnt1 cnt2 : String → Nat)
    (hv : ∀ kv ∈ sm, 0 ≤ kv.2) (hc : ∀ k, cnt1 k ≤ cnt2 k) :
    penalty sm cnt1 ≤ penalty sm cnt2 :=
  penalty_le_aux sm cnt1 cnt2 hv hc 0 0 le_rfl

lemma penalty_nonneg (sm : List (String × Int)) (cnt : String → Nat)
    (hv : ∀ kv ∈ sm, 0 ≤ kv.2) : 0 ≤ penalty sm cnt := by
  have haux : ∀ (l : List (String × Int)), (∀ kv ∈ l, 0 ≤ kv.2) → ∀ a : Int,
      a ≤ l.foldl (fun acc kv => acc + (cnt kv.1 : Int) * kv.2) a := by
    intro l
    induction l with
    | nil => intro _ a; simp
    | cons kv rest ih =>
        intro hl a
        simp only [List.foldl_cons]
        refine le_trans ?_ (ih (fun kv' h' => hl kv' (List.mem_cons_of_mem _ h')) _)
        have hkv : (0 : Int) ≤ kv.2 := hl kv (List.mem_cons_self _ _)
        have : (0 : Int) ≤ (cnt kv.1 : Int) * kv.2 :=
          mul_nonneg (Int.natCast_nonneg _) hkv
        omega
  exact haux sm hv 0

lemma penalty_congr (sm : List (String × Int)) (cnt1 cnt2 : String → Nat)
    (h : ∀ kv ∈ sm, cnt1 kv.1 = cnt2 kv.1) :
    penalty sm cnt1 = penalty sm cnt2 := by
  have haux : ∀ (l : List (String × Int)), (∀ kv ∈ l, cnt1 kv.1 = cnt2 kv.1) →
      ∀ a : Int,
      l.foldl (fun acc kv => acc + (cnt1 kv.1 : Int) * kv.2) a
        = l.foldl (fun acc kv => acc + (cnt2 kv.1 : Int) * kv.2) a := by
    intro l
    induction l with
    | nil => intro _ a; simp
    | cons kv rest ih =>
        intro hl a
        simp only [List.foldl_cons]
        rw [hl kv (List.mem_cons_self _ _)]
        exact ih (fun kv' h' => hl kv' (List.mem_cons_of_mem _ h')) _
  exact haux sm h 0

lemma sevMap_nonneg (w : List (String × Int)) (hw : ∀ kv ∈ w, 0 ≤ kv.2) :
    ∀ kv ∈ sevMapOf w, 0 ≤ kv.2 := by
  intro kv hkv
  obtain ⟨kv', h', he⟩ := sevMap_values w kv hkv
  rw [he]
  exact hw kv' h'

lemma score_row_mono (w : List (String × Int)) (hw : ∀ kv ∈ w, 0 ≤ kv.2)
    (cnt1 cnt2 : String → Nat) (hc : ∀ k, cnt1 k ≤ cnt2 k) :
    score_row (sevMapOf w) cnt2 ≤ score_row (sevMapOf w) cnt1 := by
  have hp := penalty_mono (sevMapOf w) cnt1 cnt2 (sevMap_nonneg w hw) hc
  simp only [score_row]
  exact max_le_max le_rfl (by omega)

lemma aggregate_cons_not_key (w : List (String × Int)) (f : Finding)
    (fs : List Finding) (h : (sevKeys w).contains f.severity = false) :
    aggregate_scores (f :: fs) w = aggregate_scores fs w := by
  simp only [sevKeys] at h
  have hne : f.severity ∉ (sevMapOf w).map (fun kv => kv.1) := by
    simpa using h
  simp [aggregate_scores, List.filter_cons, hne]

/-! ## Claim C1: the weighted score formula -/

/-- C1 (amended): every row's security score is
`max(0, 100 - Σ count[sev] * weight[sev])` taken over all severities of
the capitalized weight table (not only the three canonical ones), and a
finding whose severity is not a key of that table never changes the score
table; with the default weights this covers Low, Info and Unknown, and
counts Critical=1, High=0, Medium=2 give score 93. -/
theorem C1_weighted_score_formula :
    (∀ (fd : Option (List (String × Int))) (fs : List Finding),
      ∀ row ∈ aggregate_scores fs (load_weights fd),
        row.securityScore
          = max 0 (100 - penalty (sevMapOf (load_weights fd))
              (fun sev => countCF fs row.contract sev))
        ∧ row.critical = countCF fs row.contract "Critical"
        ∧ row.high = countCF fs row.contract "High"
        ∧ row.medium = countCF fs row.contract "Medium")
    ∧ (∀ (w : List (String × Int)) (f : Finding) (fs : List Finding),
        (sevKeys w).contains f.severity = false →
        aggregate_scores (f :: fs) w = aggregate_scores fs w)
    ∧ (∀ (f : Finding) (fs : List Finding),
        f.severity = "Low" ∨ f.severity = "Info" ∨ f.severity = "Unknown" →
        aggregate_scores (f :: fs) default_weights
          = aggregate_scores fs default_weights)
    ∧ aggregate_scores
        [⟨"t", "slither", "X", "a", "Critical", ""⟩,
         ⟨"t", "slither", "X", "b", "Medium", ""⟩,
         ⟨"t", "slither", "X", "c", "Medium", ""⟩] default_weights
      = [⟨"X", 1, 0, 2, 93⟩] := by
  have hkeymem : ∀ (w : List (String × Int)) (kv : String × Int),
      kv ∈ sevMapOf w →
      ((sevMapOf w).map (fun kv => kv.1)).contains kv.1 = true := by
    intro w kv hkv
    have hm : kv.1 ∈ (sevMapOf w).map (fun kv => kv.1) :=
      List.mem_map.mpr ⟨kv, hkv, rfl⟩
    simpa using hm
  refine ⟨?_, ?_, ?_, by decide⟩
  · intro fd fs row hrow
    simp only [aggregate_scores, List.mem_map] at hrow
    obtain ⟨c, hc, hrec⟩ := hrow
    subst hrec
    have hcrit :
        ((sevMapOf (load_weights fd)).map (fun kv => kv.1)).contains "Critical"
          = true := by
      simpa [sevKeys] using (mem_sevKeys_load fd).1
    have hhigh :
        ((sevMapOf (load_weights fd)).map (fun kv => kv.1)).contains "High"
          = true := by
      simpa [sevKeys] using (mem_sevKeys_load fd).2.1
    have hmed :
        ((sevMapOf (load_weights fd)).map (fun kv => kv.1)).contains "Medium"
          = true := by
      simpa [sevKeys] using (mem_sevKeys_load fd).2.2
    refine ⟨?_, ?_, ?_, ?_⟩
    · show score_row _ _ = _
      rw [score_row]
      rw [penalty_congr (sevMapOf (load_weights fd)) _ _
        (fun kv hkv => countCF_filter_eq _ _ (hkeymem _ kv hkv) fs c)]
    · exact countCF_filter_eq _ _ hcrit fs c
    · exact countCF_filter_eq _ _ hhigh fs c
    · exact countCF_filter_eq _ _ hmed fs c
  · exact aggregate_cons_not_key
  · intro f fs h
    refine aggregate_cons_not_key default_weights f fs ?_
    rcases h with h | h | h <;> rw [h] <;> decide

/-- Witness for C1: an Unknown-severity finding leaves the (empty) default
score table unchanged. -/
theorem C1_witness :
    aggregate_scores [⟨"t", "slither", "A", "i", "Unknown", ""⟩] default_weights
      = aggregate_scores ([] : List Finding) default_weights :=
  C1_weighted_score_formula.2.2.1 ⟨"t", "slither", "A", "i", "Unknown", ""⟩ []
    (Or.inr (Or.inr rfl))

/-- Counterexample for C1 as frozen: with the loaded weight table
`{Critical:5, High:3, Medium:1, Low:2}` a single Low finding is weighted,
so it changes the score table (score 98, not the claimed untouched 100). -/
theorem C1_counterexample :
    aggregate_scores [⟨"t", "slither", "A", "i", "Low", ""⟩]
        (load_weights (some [("Low", 2)]))
      = [⟨"A", 0, 0, 0, 98⟩]
    ∧ aggregate_scores ([] : List Finding) (load_weights (some [("Low", 2)]))
        = []
    ∧ ¬ (aggregate_scores [⟨"t", "slither", "A", "i", "Low", ""⟩]
          (load_weights (some [("Low", 2)]))
        = aggregate_scores ([] : List Finding)
            (load_weights (some [("Low", 2)]))) := by
  refine ⟨by decide, by decide, by decide⟩

/-! ## Claim C4: bounds and monotonicity of the score -/

/-- C4 (amended): when every weight of the table is non-negative, every
aggregated security score lies in [0, 100], the score is monotonically
non-increasing in the severity counts, and adding a finding never raises
an existing contract's score. -/
theorem C4_score_bounds_monotone :
    (∀ (w : List (String × Int)), (∀ kv ∈ w, 0 ≤ kv.2) →
      ∀ (fs : List Finding), ∀ row ∈ aggregate_scores fs w,
        0 ≤ row.securityScore ∧ row.securityScore ≤ 100)
    ∧ (∀ (w : List (String × Int)), (∀ kv ∈ w, 0 ≤ kv.2) →
        ∀ cnt1 cnt2 : String → Nat, (∀ k, cnt1 k ≤ cnt2 k) →
          score_row (sevMapOf w) cnt2 ≤ score_row (sevMapOf w) cnt1)
    ∧ (∀ (w : List (String × Int)), (∀ kv ∈ w, 0 ≤ kv.2) →
        ∀ (f : Finding) (fs : List Finding) r r',
          r' ∈ aggregate_scores (f :: fs) w → r ∈ aggregate_scores fs w →
          r.contract = r'.contract → r'.securityScore ≤ r.securityScore) := by
  refine ⟨?_, ?_, ?_⟩
  · intro w hw fs row hrow
    simp only [aggregate_scores, List.mem_map] at hrow
    obtain ⟨c, hc, hrec⟩ := hrow
    subst hrec
    have hp := penalty_nonneg (sevMapOf w)
      (fun sev => countCF (fs.filter (fun f =>
        ((sevMapOf w).map (fun kv => kv.1)).contains f.severity)) c sev)
      (sevMap_nonneg w hw)
    constructor
    · exact le_max_left 0 _
    · show score_row _ _ ≤ 100
      rw [score_row]
      exact max_le (by norm_num) (by omega)
  · exact score_row_mono
  · intro w hw f fs r r' hr' hr hcc
    simp only [aggregate_scores, List.mem_map] at hr hr'
    obtain ⟨c, hc, hrec⟩ := hr
    obtain ⟨c', hc', hrec'⟩ := hr'
    subst hrec
    subst hrec'
    simp only at hcc
    subst hcc
    show score_row _ _ ≤ score_row _ _
    refine score_row_mono w hw _ _ ?_
    intro sev
    rw [List.filter_cons]
    split
    · rw [countCF_cons]
      omega
    · exact le_rfl

/-- Witness for C4: a concrete row of a concrete aggregation lies in
[0, 100]. -/
theorem C4_witness :
    0 ≤ (ScoreRow.mk "A" 1 0 0 95).securityScore
    ∧ (ScoreRow.mk "A" 1 0 0 95).securityScore ≤ 100 :=
  C4_score_bounds_monotone.1 default_weights (by decide)
    [⟨"t", "slither", "A", "i", "Critical", ""⟩]
    (ScoreRow.mk "A" 1 0 0 95) (by decide)

/-- Counterexample for C4 as frozen: a weights file may carry a negative
weight, and then the score exceeds 100 (and grows with the count). -/
theorem C4_counterexample :
    aggregate_scores [⟨"t", "slither", "A", "i", "Critical", ""⟩]
        (load_weights (some [("Critical", -5)]))
      = [⟨"A", 1, 0, 0, 105⟩]
    ∧ ¬ ((105 : Int) ≤ 100) := by
  refine ⟨by decide, by decide⟩

/-! ## Claim C8: rows for unweighted contracts; synthetic default rows -/

lemma mem_insertSortedStr (x y : String) (l : List String)
    (h : x ∈ insertSortedStr y l) : x = y ∨ x ∈ l := by
  induction l with
  | nil =>
      simp only [insertSortedStr, List.mem_singleton] at h
      exact Or.inl h
  | cons a t ih =>
      simp only [insertSortedStr] at h
      split at h
      · exact List.mem_cons.mp h
      · rcases List.mem_cons.mp h with h | h
        · exact Or.inr (List.mem_cons.mpr (Or.inl h))
        · rcases ih h with h | h
          · exact Or.inl h
          · exact Or.inr (List.mem_cons.mpr (Or.inr h))

lemma mem_sortedContracts_aux (xs : List String) (x : String) :
    ∀ acc, x ∈ xs.foldl
        (fun acc c => if acc.contains c then acc else insertSortedStr c acc)
        acc →
      x ∈ acc ∨ x ∈ xs := by
  induction xs with
  | nil =>
      intro acc h
      exact Or.inl (by simpa using h)
  | cons a t ih =>
      intro acc h
      simp only [List.foldl_cons] at h
      by_cases hca : acc.contains a = true
      · rw [if_pos hca] at h
        rcases ih acc h with h | h
        · exact Or.inl h
        · exact Or.inr (List.mem_cons.mpr (Or.inr h))
      · rw [if_neg hca] at h
        rcases ih _ h with h | h
        · rcases mem_insertSortedStr x a acc h with h | h
          · exact Or.inr (List.mem_cons.mpr (Or.inl h))
          · exact Or.inl h
        · exact Or.inr (List.mem_cons.mpr (Or.inr h))

lemma mem_sortedContracts (xs : List String) (x : String)
    (h : x ∈ sortedContracts xs) : x ∈ xs := by
  rcases mem_sortedContracts_aux xs x [] h with h | h
  · simp at h
  · exact h

/-- C8 (amended): a contract appearing in the finding set only under
severities outside the weight table receives no row at all, whatever the
other findings of the set are (the severity filter removes its findings
before grouping); a set made only of such findings aggregates to the empty
table; when the finding set is entirely empty the table is exactly the two
synthetic baseline/improved rows at score 100; a non-empty finding set is
aggregated normally. -/
theorem C8_unweighted_no_row :
    (∀ (fs : List Finding) (w : List (String × Int)) (c : String),
      (∀ f ∈ fs, f.contract = c → (sevKeys w).contains f.severity = false) →
      ∀ row ∈ aggregate_scores fs w, row.contract ≠ c)
    ∧ (∀ (fs : List Finding) (w : List (String × Int)),
      (∀ f ∈ fs, (sevKeys w).contains f.severity = false) →
      aggregate_scores fs w = [])
    ∧ (∀ w : List (String × Int), scores_table [] w
        = [⟨"ProductRegistry", 0, 0, 0, 100⟩,
           ⟨"ProductRegistryImproved", 0, 0, 0, 100⟩])
    ∧ (∀ (fs : List Finding) (w : List (String × Int)), fs ≠ [] →
        scores_table fs w = aggregate_scores fs w) := by
  refine ⟨?_, ?_, ?_, ?_⟩
  · intro fs w c h row hrow
    simp only [aggregate_scores, List.mem_map] at hrow
    obtain ⟨c', hc', hrec⟩ := hrow
    subst hrec
    intro hcc
    have hcc' : c' = c := hcc
    rw [hcc'] at hc'
    have hm := mem_sortedContracts _ _ hc'
    simp only [List.mem_map] at hm
    obtain ⟨f, hf, hfc⟩ := hm
    rw [List.mem_filter] at hf
    obtain ⟨hffs, hfsev⟩ := hf
    have hno := h f hffs hfc
    simp only [sevKeys] at hno
    rw [hno] at hfsev
    exact Bool.noConfusion hfsev
  · intro fs w h
    have hfil : fs.filter (fun f =>
        ((sevMapOf w).map (fun kv => kv.1)).contains f.severity) = [] := by
      refine List.filter_eq_nil_iff.mpr ?_
      intro f hf
      have hh := h f hf
      simp only [sevKeys] at hh
      rw [hh]
      simp
    simp only [aggregate_scores]
    rw [hfil]
    rfl
  · intro w
    rfl
  · intro fs w h
    rw [scores_table, if_neg (by simpa [List.isEmpty_iff] using h)]

/-- Witness for C8: in the mixed set of a Low finding on contract A and a
Critical finding on contract B, A gets no row while B keeps its score-95
row; the empty finding set yields the two synthetic rows. -/
theorem C8_witness :
    (ScoreRow.mk "B" 1 0 0 95).contract ≠ "A"
    ∧ aggregate_scores
        [⟨"t", "slither", "A", "i", "Low", ""⟩,
         ⟨"t", "mythril", "B", "j", "Critical", ""⟩] default_weights
      = [⟨"B", 1, 0, 0, 95⟩]
    ∧ scores_table [] default_weights
      = [⟨"ProductRegistry", 0, 0, 0, 100⟩,
         ⟨"ProductRegistryImproved", 0, 0, 0, 100⟩] := by
  refine ⟨C8_unweighted_no_row.1
      [⟨"t", "slither", "A", "i", "Low", ""⟩,
       ⟨"t", "mythril", "B", "j", "Critical", ""⟩] default_weights "A" ?_
      (ScoreRow.mk "B" 1 0 0 95) (by decide),
    by decide, C8_unweighted_no_row.2.2.1 default_weights⟩
  intro f hf hfc
  rcases List.mem_cons.mp hf with h | h
  · rw [h]
    decide
  · rw [List.mem_singleton.mp h] at hfc
    exact absurd hfc (by decide)

/-- Counterexample for C8 as frozen: the contract A appears in the finding
set (only under the non-weighted severity Low) yet receives no row. -/
theorem C8_counterexample :
    aggregate_scores [⟨"t", "slither", "A", "i", "Low", ""⟩] default_weights
      = [] := by
  decide

/-! ## Lemmas about severity normalization and the parsers -/

lemma exists_not_dropWhile (p : Char → Bool) (l : List Char)
    (h : ∃ c ∈ l, p c = false) :
    ∃ c ∈ l.dropWhile p, p c = false := by
  induction l with
  | nil => simpa using h
  | cons a t ih =>
      rcases hpa : p a with _ | _
      · refine ⟨a, ?_, hpa⟩
        simp [List.dropWhile_cons, hpa]
      · obtain ⟨c, hc, hpc⟩ := h
        rcases List.mem_cons.mp hc with rfl | hc
        · rw [hpa] at hpc; cases hpc
        · simpa [List.dropWhile_cons, hpa] using ih ⟨c, hc, hpc⟩

lemma pyStrip_has (s : String) (h : ∃ c ∈ s.data, isPySpace c = false) :
    ∃ c ∈ (pyStrip s).data, isPySpace c = false := by
  obtain ⟨c1, hm1, hp1⟩ := exists_not_dropWhile isPySpace s.data h
  have h2 : ∃ c ∈ (s.data.dropWhile isPySpace).reverse, isPySpace c = false :=
    ⟨c1, List.mem_reverse.mpr hm1, hp1⟩
  obtain ⟨c2, hm2, hp2⟩ :=
    exists_not_dropWhile isPySpace (s.data.dropWhile isPySpace).reverse h2
  exact ⟨c2, by simpa [pyStrip] using List.mem_reverse.mpr hm2, hp2⟩

lemma pyCapitalize_ne_empty (s : String) (h : s.data ≠ []) :
    pyCapitalize s ≠ "" := by
  rcases hd : s.data with _ | ⟨c, cs⟩
  · exact absurd hd h
  · simp only [pyCapitalize, hd]
    intro hcon
    have := congrArg String.data hcon
    simp at this

lemma norm_sev_str_ne (s : String) (h : ∃ c ∈ s.data, isPySpace c = false) :
    norm_sev_str s ≠ "" := by
  have h1 : (pyStrip s).data ≠ [] := by
    obtain ⟨c, hc, -⟩ := pyStrip_has s h
    exact List.ne_nil_of_mem hc
  have h2 : (pyLower (pyStrip s)).data ≠ [] := by
    simpa [pyLower] using h1
  simp only [norm_sev_str]
  split
  · decide
  split
  · decide
  split
  · decide
  split
  · exact pyCapitalize_ne_empty _ h2
  · exact pyCapitalize_ne_empty _ h2

lemma wsCleanKV_lookup {kvs : List (String × JsonV)} {k : String} {v : JsonV}
    (hw : wsCleanKV kvs = true) (h : lookupLast kvs k = some v) :
    wsCleanJ v = true := by
  induction kvs with
  | nil => cases h
  | cons kv rest ih =>
      simp only [wsCleanKV, Bool.and_eq_true] at hw
      simp only [lookupLast] at h
      cases hrec : lookupLast rest k with
      | some r =>
          rw [hrec] at h
          have hrv : r = v := Option.some.inj h
          subst hrv
          exact ih hw.2 hrec
      | none =>
          rw [hrec] at h
          by_cases hk : kv.1 = k
          · rw [if_pos hk] at h
            rw [← Option.some.inj h]
            exact hw.1
          · rw [if_neg hk] at h
            cases h

lemma wsClean_jget {v : JsonV} {k : String} {u : JsonV}
    (hv : wsCleanJ v = true) (h : jget? v k = some u) : wsCleanJ u = true := by
  cases v with
  | obj kvs =>
      simp only [jget?] at h
      rw [← Option.some.inj h]
      cases hl : lookupLast kvs k with
      | some r =>
          exact wsCleanKV_lookup (by simpa [wsCleanJ] using hv) hl
      | none => rfl
  | null => cases h
  | bool b => cases h
  | num n => cases h
  | str s => cases h
  | arr xs => cases h

lemma wsClean_jgetD {v : JsonV} {k : String} {dflt u : JsonV}
    (hv : wsCleanJ v = true) (hd : wsCleanJ dflt = true)
    (h : jgetD v k dflt = some u) : wsCleanJ u = true := by
  cases v with
  | obj kvs =>
      simp only [jgetD] at h
      rw [← Option.some.inj h]
      cases hl : lookupLast kvs k with
      | some r =>
          exact wsCleanKV_lookup (by simpa [wsCleanJ] using hv) hl
      | none => exact hd
  | null => cases h
  | bool b => cases h
  | num n => cases h
  | str s => cases h
  | arr xs => cases h

lemma wsClean_pyOr {a b : JsonV} (ha : wsCleanJ a = true)
    (hb : wsCleanJ b = true) : wsCleanJ (pyOrJ a b) = true := by
  unfold pyOrJ
  split <;> assumption

lemma wsCleanL_mem {xs : List JsonV} {x : JsonV} (h : wsCleanL xs = true)
    (hx : x ∈ xs) : wsCleanJ x = true := by
  induction xs with
  | nil => cases hx
  | cons y ys ih =>
      simp only [wsCleanL, Bool.and_eq_true] at h
      rcases List.mem_cons.mp hx with rfl | hx
      · exact h.1
      · exact ih h.2 hx

lemma wsClean_asIter {v : JsonV} {xs : List JsonV}
    (hv : wsCleanJ v = true) (h : asIterList v = some xs) :
    ∀ x ∈ xs, wsCleanJ x = true := by
  cases v with
  | arr ys =>
      simp only [asIterList] at h
      cases h
      exact fun x hx => wsCleanL_mem (by simpa [wsCleanJ] using hv) hx
  | null => cases h
  | bool b => cases h
  | num n => cases h
  | str s => cases h
  | obj kvs => cases h

lemma norm_sev_ws {v : JsonV} {r : String} (hv : wsCleanJ v = true)
    (h : norm_sev v = some r) : r ≠ "" := by
  unfold norm_sev at h
  split at h
  · cases v with
    | str s =>
        cases h
        have hs : s ≠ "" := by
          rename_i htr
          simpa [truthy] using htr
        have hws : ∃ c ∈ s.data, isPySpace c = false := by
          simp only [wsCleanJ, Bool.or_eq_true] at hv
          rcases hv with hv | hv
          · exact absurd (by simpa using hv) hs
          · obtain ⟨c, hc, hpc⟩ := List.any_eq_true.mp hv
            exact ⟨c, hc, by simpa using hpc⟩
        exact norm_sev_str_ne s hws
    | null => cases h
    | bool b => cases h
    | num n => cases h
    | arr xs => cases h
    | obj kvs => cases h
  · cases h
    decide

lemma optMapList_cons_eq {α β : Type} (f : α → Option β) (x : α)
    (xs : List α) :
    optMapList f (x :: xs)
      = (f x).bind (fun y =>
          (optMapList f xs).bind (fun ys => some (y :: ys))) := rfl

lemma optMapList_mem {α β : Type} {f : α → Option β} {xs : List α}
    {ys : List β} (h : optMapList f xs = some ys) :
    ∀ y ∈ ys, ∃ x ∈ xs, f x = some y := by
  induction xs generalizing ys with
  | nil =>
      have hnil : optMapList f ([] : List α) = some [] := rfl
      rw [hnil] at h
      rw [← Option.some.inj h]
      intro y hy
      cases hy
  | cons x xs ih =>
      rw [optMapList_cons_eq, Option.bind_eq_some] at h
      obtain ⟨y0, hy0, h⟩ := h
      rw [Option.bind_eq_some] at h
      obtain ⟨ys', hys', h⟩ := h
      rw [← Option.some.inj h]
      intro y hy
      rcases List.mem_cons.mp hy with rfl | hy
      · exact ⟨x, List.mem_cons_self _ _, hy0⟩
      · obtain ⟨x', hx', hfx'⟩ := ih hys' y hy
        exact ⟨x', List.mem_cons_of_mem _ hx', hfx'⟩

lemma parse_slither_det_sev {ts : String} {d : JsonV} {l : List Finding}
    (hw : wsCleanJ d = true) (h : parse_slither_det ts d = some l) :
    ∀ f ∈ l, f.severity ≠ "" := by
  unfold parse_slither_det at h
  rw [Option.bind_eq_bind', Option.bind_eq_some] at h
  obtain ⟨checkV, hcheck, h⟩ := h
  rw [Option.bind_eq_bind', Option.bind_eq_some] at h
  obtain ⟨titleV, htitle, h⟩ := h
  rw [Option.bind_eq_bind', Option.bind_eq_some] at h
  obtain ⟨impactV, himpact, h⟩ := h
  rw [Option.bind_eq_bind', Option.bind_eq_some] at h
  obtain ⟨sevRawV, hsevraw, h⟩ := h
  rw [Option.bind_eq_bind', Option.bind_eq_some] at h
  obtain ⟨descV, hdesc, h⟩ := h
  rw [Option.bind_eq_bind', Option.bind_eq_some] at h
  obtain ⟨elemsV, helems, h⟩ := h
  rw [Option.bind_eq_bind', Option.bind_eq_some] at h
  obtain ⟨issueS, hissue, h⟩ := h
  rw [Option.bind_eq_bind', Option.bind_eq_some] at h
  obtain ⟨descS, hdescS, h⟩ := h
  rw [Option.bind_eq_bind', Option.bind_eq_some] at h
  obtain ⟨sevS, hsevS, h⟩ := h
  rw [Option.bind_eq_bind', Option.bind_eq_some] at h
  obtain ⟨elemList, helemList, h⟩ := h
  have hsev : sevS ≠ "" := by
    have hiw : wsCleanJ impactV = true := wsClean_jget hw himpact
    have hsw : wsCleanJ sevRawV = true := wsClean_jget hw hsevraw
    have harg : wsCleanJ (pyOrJ impactV (pyOrJ sevRawV (.str "Unknown")))
        = true :=
      wsClean_pyOr hiw (wsClean_pyOr hsw (by decide))
    exact norm_sev_ws harg hsevS
  intro f hf
  split at h
  · rw [← Option.some.inj h] at hf
    rw [List.mem_singleton.mp hf]
    exact hsev
  · obtain ⟨e, -, hfe⟩ := optMapList_mem h f hf
    rw [Option.bind_eq_bind', Option.bind_eq_some] at hfe
    obtain ⟨cV, -, hfe⟩ := hfe
    rw [Option.bind_eq_bind', Option.bind_eq_some] at hfe
    obtain ⟨cS, -, hfe⟩ := hfe
    rw [← Option.some.inj hfe]
    exact hsev

lemma parse_slither_sev {ts : String} {data : JsonV} {fs : List Finding}
    (hw : wsCleanJ data = true) (h : parse_slither ts data = some fs) :
    ∀ f ∈ fs, f.severity ≠ "" := by
  unfold parse_slither at h
  rw [Option.bind_eq_bind', Option.bind_eq_some] at h
  obtain ⟨resRaw, hres, h⟩ := h
  rw [Option.bind_eq_bind', Option.bind_eq_some] at h
  obtain ⟨detsRaw, hdets, h⟩ := h
  rw [Option.bind_eq_bind', Option.bind_eq_some] at h
  obtain ⟨detList, hdl, h⟩ := h
  rw [Option.bind_eq_bind', Option.bind_eq_some] at h
  obtain ⟨rows, hrows, h⟩ := h
  rw [← Option.some.inj h]
  intro f hf
  obtain ⟨l, hl, hfl⟩ := List.mem_flatten.mp hf
  have hresW : wsCleanJ (pyOrJ resRaw (.obj [])) = true :=
    wsClean_pyOr (wsClean_jget hw hres) (by decide)
  have hdetsW : wsCleanJ (pyOrJ detsRaw (.arr [])) = true :=
    wsClean_pyOr (wsClean_jget hresW hdets) (by decide)
  obtain ⟨d, hd, hdet⟩ := optMapList_mem hrows l hl
  exact parse_slither_det_sev (wsClean_asIter hdetsW hdl d hd) hdet f hfl

lemma parse_mythril_sev {ts : String} {data : JsonV} {fs : List Finding}
    (hw : wsCleanJ data = true) (h : parse_mythril ts data = some fs) :
    ∀ f ∈ fs, f.severity ≠ "" := by
  unfold parse_mythril at h
  rw [Option.bind_eq_bind', Option.bind_eq_some] at h
  obtain ⟨issuesRaw, hraw, h⟩ := h
  rw [Option.bind_eq_bind', Option.bind_eq_some] at h
  obtain ⟨ilist, hil, hmap⟩ := h
  have hitemsW : wsCleanJ (pyOrJ issuesRaw (.arr [])) = true :=
    wsClean_pyOr (wsClean_jgetD hw (by decide) hraw) (by decide)
  intro f hf
  obtain ⟨i, hi, hfi⟩ := optMapList_mem hmap f hf
  have hiw : wsCleanJ i = true := wsClean_asIter hitemsW hil i hi
  unfold parse_mythril_issue at hfi
  rw [Option.bind_eq_bind', Option.bind_eq_some] at hfi
  obtain ⟨titleV, htV, hfi⟩ := hfi
  rw [Option.bind_eq_bind', Option.bind_eq_some] at hfi
  obtain ⟨swcV, hwV, hfi⟩ := hfi
  rw [Option.bind_eq_bind', Option.bind_eq_some] at hfi
  obtain ⟨sevRawV, hsV, hfi⟩ := hfi
  rw [Option.bind_eq_bind', Option.bind_eq_some] at hfi
  obtain ⟨descV, hdV, hfi⟩ := hfi
  rw [Option.bind_eq_bind', Option.bind_eq_some] at hfi
  obtain ⟨cV, hcV, hfi⟩ := hfi
  rw [Option.bind_eq_bind', Option.bind_eq_some] at hfi
  obtain ⟨fV, hfV, hfi⟩ := hfi
  rw [Option.bind_eq_bind', Option.bind_eq_some] at hfi
  obtain ⟨cS, hcS, hfi⟩ := hfi
  rw [Option.bind_eq_bind', Option.bind_eq_some] at hfi
  obtain ⟨issueS, hiS, hfi⟩ := hfi
  rw [Option.bind_eq_bind', Option.bind_eq_some] at hfi
  obtain ⟨descS, hdS, hfi⟩ := hfi
  rw [Option.bind_eq_bind', Option.bind_eq_some] at hfi
  obtain ⟨sevS, hsS, hfi⟩ := hfi
  rw [← Option.some.inj hfi]
  have harg : wsCleanJ (pyOrJ sevRawV (.str "Unknown")) = true :=
    wsClean_pyOr (wsClean_jget hiw hsV) (by decide)
  exact norm_sev_ws harg hsS

/-! ## Claim C3: the severity taxonomy -/

/-- C3 (amended): `norm_sev` normalizes after stripping whitespace and
lowercasing; critical/very high, high, medium map to the canonical three;
low, info, informational, warning map to their own capitalized category;
any other token is capitalized (first character uppercased, remainder
lowercased) after stripping and lowercasing, so a non-empty whitespace-only
token maps to the empty string; empty or absent input maps to Unknown;
the result is non-empty for every input containing a non-whitespace
character; all fuzzer-C findings carry severity Medium, and every
scanner-A/B finding has a non-empty severity provided no string in the
report is non-empty but all-whitespace. -/
theorem C3_severity_taxonomy :
    (norm_sev JsonV.null = some "Unknown"
      ∧ norm_sev (JsonV.str "") = some "Unknown")
    ∧ (∀ s : String,
        pyLower (pyStrip s) = "critical" ∨ pyLower (pyStrip s) = "very high" →
        norm_sev_str s = "Critical")
    ∧ (∀ s : String, pyLower (pyStrip s) = "high" → norm_sev_str s = "High")
    ∧ (∀ s : String, pyLower (pyStrip s) = "medium" → norm_sev_str s = "Medium")
    ∧ (norm_sev_str "low" = "Low" ∧ norm_sev_str "info" = "Info"
        ∧ norm_sev_str "informational" = "Informational"
        ∧ norm_sev_str "warning" = "Warning")
    ∧ (∀ s : String,
        pyLower (pyStrip s) ≠ "critical" → pyLower (pyStrip s) ≠ "very high" →
        pyLower (pyStrip s) ≠ "high" → pyLower (pyStrip s) ≠ "medium" →
        norm_sev_str s = pyCapitalize (pyLower (pyStrip s)))
    ∧ (∀ s : String, (∃ c ∈ s.data, isPySpace c = false) → norm_sev_str s ≠ "")
    ∧ (∀ (decode : String → Option JsonV) (ts content : String)
          (fs : List Finding),
        parse_echidna decode ts content = some fs →
        ∀ f ∈ fs, f.severity = "Medium")
    ∧ (∀ (ts : String) (data : JsonV) (fs : List Finding),
        wsCleanJ data = true → parse_slither ts data = some fs →
        ∀ f ∈ fs, f.severity ≠ "")
    ∧ (∀ (ts : String) (data : JsonV) (fs : List Finding),
        wsCleanJ data = true → parse_mythril ts data = some fs →
        ∀ f ∈ fs, f.severity ≠ "") := by
  refine ⟨⟨rfl, rfl⟩, ?_, ?_, ?_, by decide, ?_, norm_sev_str_ne, ?_, ?_, ?_⟩
  · intro s h
    rcases h with h | h <;> simp [norm_sev_str, h]
  · intro s h
    simp [norm_sev_str, h]
  · intro s h
    simp [norm_sev_str, h]
  · intro s h1 h2 h3 h4
    simp [norm_sev_str, h1, h2, h3, h4]
  · intro decode ts content fs h f hf
    unfold parse_echidna at h
    rcases hd : echidnaData decode content with _ | data
    · rw [hd] at h
      have h2 : (some ([] : List Finding)) = some fs := h
      rw [← Option.some.inj h2] at hf
      cases hf
    · rw [hd] at h
      have h2 : (match echidnaFailures data with
          | none => (none : Option (List Finding))
          | some failures => some (failures.map (fun prop =>
              ⟨ts, "echidna", "Invariants", prop, "Medium",
               "Property failed under fuzzing"⟩))) = some fs := h
      rcases hfl : echidnaFailures data with _ | failures
      · rw [hfl] at h2
        cases h2
      · rw [hfl] at h2
        rw [← Option.some.inj h2] at hf
        obtain ⟨prop, -, rfl⟩ := List.mem_map.mp hf
        rfl
  · intro ts data fs hw h
    exact parse_slither_sev hw h
  · intro ts data fs hw h
    exact parse_mythril_sev hw h

/-- Witness for C3: very high normalizes to Critical after strip and
lower, and a token with a non-whitespace character never normalizes to
the empty string. -/
theorem C3_witness :
    norm_sev_str " Very High " = "Critical" ∧ norm_sev_str "warning" ≠ "" := by
  refine ⟨C3_severity_taxonomy.2.1 " Very High " (Or.inr (by decide)), ?_⟩
  exact C3_severity_taxonomy.2.2.2.2.2.2.1 "warning" ⟨'w', by decide, by decide⟩

/-- Counterexample for C3 as frozen: a non-empty all-whitespace severity
token normalizes to the empty string, so the result is not always a
non-empty string (and the whitespace-only token is neither passed through
unchanged nor mapped to Unknown). -/
theorem C3_counterexample : norm_sev (JsonV.str " ") = some "" := rfl

/-! ## Claim C7: robustness of the fuzzer-C parser -/

/-- C7 (amended): every fuzzer-C Finding has severity Medium and contract
Invariants; when the whole content does not decode, only the last
non-empty line is decoded; failure to decode both yields the empty
finding list; however a decoded object whose failedTests key holds a
truthy non-mapping value raises an uncaught error instead of yielding an
empty list (see the counterexample). -/
theorem C7_echidna_robustness :
    (∀ (decode : String → Option JsonV) (ts content : String)
        (fs : List Finding),
      parse_echidna decode ts content = some fs →
      ∀ f ∈ fs, f.severity = "Medium" ∧ f.contract = "Invariants")
    ∧ (∀ (decode : String → Option JsonV) (content : String),
        decode content = none →
        ∀ ln, lastNonEmptyLine content = some ln →
          echidnaData decode content = decode ln)
    ∧ (∀ (decode : String → Option JsonV) (ts content : String),
        decode content = none →
        (∀ ln, lastNonEmptyLine content = some ln → decode ln = none) →
        parse_echidna decode ts content = some []) := by
  refine ⟨?_, ?_, ?_⟩
  · intro decode ts content fs h f hf
    unfold parse_echidna at h
    rcases hd : echidnaData decode content with _ | data
    · rw [hd] at h
      have h2 : (some ([] : List Finding)) = some fs := h
      rw [← Option.some.inj h2] at hf
      cases hf
    · rw [hd] at h
      have h2 : (match echidnaFailures data with
          | none => (none : Option (List Finding))
          | some failures => some (failures.map (fun prop =>
              ⟨ts, "echidna", "Invariants", prop, "Medium",
               "Property failed under fuzzing"⟩))) = some fs := h
      rcases hfl : echidnaFailures data with _ | failures
      · rw [hfl] at h2
        cases h2
      · rw [hfl] at h2
        rw [← Option.some.inj h2] at hf
        obtain ⟨prop, -, rfl⟩ := List.mem_map.mp hf
        exact ⟨rfl, rfl⟩
  · intro decode content hdec ln hln
    unfold echidnaData
    rw [hdec, hln]
  · intro decode ts content hdec hall
    have hd : echidnaData decode content = some (.obj [])
        ∨ echidnaData decode content = none := by
      unfold echidnaData
      rw [hdec]
      rcases hln : lastNonEmptyLine content with _ | ln
      · exact Or.inl rfl
      · exact Or.inr (hall ln hln)
    unfold parse_echidna
    rcases hd with hd | hd <;> rw [hd] <;> rfl

/-- Witness for C7: undecodable content yields the empty list; a
failedTests mapping yields Medium/Invariants findings. -/
theorem C7_witness :
    parse_echidna (fun _ => none) "t" "not json" = some []
    ∧ ((parse_echidna demoEchidnaDecode "t" "X").getD []).map
        (fun f => (f.severity, f.contract)) = [("Medium", "Invariants")] := by
  refine ⟨?_, rfl⟩
  exact C7_echidna_robustness.2.2 (fun _ => none) "t" "not json" rfl
    (fun ln _ => rfl)

/-- Counterexample for C7 as frozen: the well-formed JSON text
`{"failedTests": [0]}` decodes, but its failedTests value is a truthy
list, so `.keys()` raises AttributeError and the parser propagates the
error (`none`) instead of returning an empty finding list. -/
theorem C7_counterexample :
    parse_echidna decodeFailedTestsList "t"
      "\x7b\"failedTests\": [0]\x7d" = none := rfl

/-! ## Claim C9: coverage resolution -/

/-- C9: the LCOV-derived percentage, (ΣLH / ΣLF) * 100 rounded to two
decimals, is preferred whenever an LCOV trace is present with ΣLF > 0;
when the trace is absent or has ΣLF ≤ 0, the ordered-pattern text
fallback is used. -/
theorem C9_coverage_preference (lc : String) (txt? : Option String) :
    (0 < (lcovTotals lc).1 →
      resolve_coverage (some lc) txt?
        = some (pyRound2 (((lcovTotals lc).2 : ℚ) / ((lcovTotals lc).1 : ℚ)
            * 100)))
    ∧ ((lcovTotals lc).1 ≤ 0 →
      resolve_coverage (some lc) txt?
        = match txt? with
          | some t => parse_coverage_summary t
          | none => none)
    ∧ (resolve_coverage none txt?
        = match txt? with
          | some t => parse_coverage_summary t
          | none => none) := by
  have hstep : resolve_coverage (some lc) txt?
      = (match parse_coverage_lcov lc with
         | some v => some v
         | none =>
             match txt? with
             | some t => parse_coverage_summary t
             | none => none) := rfl
  refine ⟨?_, ?_, ?_⟩
  · intro h
    have hl : parse_coverage_lcov lc
        = some (pyRound2 (((lcovTotals lc).2 : ℚ) / ((lcovTotals lc).1 : ℚ)
            * 100)) := by
      unfold parse_coverage_lcov
      rw [if_pos h]
    rw [hstep, hl]
  · intro h
    have hl : parse_coverage_lcov lc = none := by
      unfold parse_coverage_lcov
      rw [if_neg (by omega)]
    rw [hstep, hl]
  · rfl

/-- Witness for C9: Scenario E.  LF=80, LH=76 gives 95.0 preferred over
the text value; without a trace the text fallback gives 91.0; the
Statements pattern wins over a Lines match occurring earlier in the
text. -/
theorem C9_witness :
    resolve_coverage (some "LF:80\nLH:76") (some "Statements: 91%") = some 95
    ∧ resolve_coverage none (some "Statements: 91%") = some 91
    ∧ resolve_coverage none (some "Lines: 50% but Statements: 91%")
        = some 91 := by
  refine ⟨?_, ?_, ?_⟩
  · have h := (C9_coverage_preference "LF:80\nLH:76"
      (some "Statements: 91%")).1 (by decide)
    rw [h]
    rw [(by decide : lcovTotals "LF:80\nLH:76" = (80, 76))]
    rw [show (((80, 76) : Int × Int).2 : ℚ) / (((80, 76) : Int × Int).1 : ℚ)
        * 100 = 95 by norm_num]
    rw [show pyRound2 (95 : ℚ) = 95 by
      unfold pyRound2 roundHalfEven
      rw [show (95 : ℚ) * 100 = 9500 by norm_num]
      rw [show Rat.floor (9500 : ℚ) = 9500 by decide]
      norm_num]
  · rw [(C9_coverage_preference "" (some "Statements: 91%")).2.2]
    decide
  · rw [(C9_coverage_preference ""
      (some "Lines: 50% but Statements: 91%")).2.2]
    decide

/-! ## Lemmas for the scanner-A parser refinement (claim C6) -/

lemma strOk_truthy {v : JsonV} (h : strOk v = true) (ht : truthy v = true) :
    ∃ s, v = JsonV.str s ∧ s ≠ "" := by
  cases v with
  | str s =>
      refine ⟨s, rfl, ?_⟩
      simpa [truthy] using ht
  | null => simp [truthy] at ht
  | bool b =>
      simp [truthy] at ht
      simp [strOk, truthy, ht] at h
  | num n =>
      simp [strOk, truthy] at h
      simp [truthy, h] at ht
  | arr xs =>
      simp [strOk, truthy] at h
      simp [truthy, h] at ht
  | obj kvs =>
      simp [strOk, truthy] at h
      simp [truthy, h] at ht

lemma jTextOf_str (s : String) : jTextOf (JsonV.str s) = s := rfl

lemma jTextOf_falsy {v : JsonV} (h : truthy v = false) : jTextOf v = "" := by
  cases v with
  | str s =>
      have : s = "" := by simpa [truthy] using h
      simp [jTextOf, this]
  | null => rfl
  | bool b => rfl
  | num n => rfl
  | arr xs => rfl
  | obj kvs => rfl

lemma pyOrJ_truthy {a b : JsonV} (h : truthy a = true) : pyOrJ a b = a := by
  simp [pyOrJ, h]

lemma pyOrJ_falsy {a b : JsonV} (h : truthy a = false) : pyOrJ a b = b := by
  simp [pyOrJ, h]

lemma asStr_pyOr_chain2 {a b : JsonV} {dflt : String}
    (ha : strOk a = true) (hb : strOk b = true) (hd : dflt ≠ "") :
    asStr (pyOrJ a (pyOrJ b (.str dflt)))
      = some (firstNonEmpty [jTextOf a, jTextOf b] dflt) := by
  rcases hta : truthy a with _ | _
  · rw [pyOrJ_falsy hta]
    have h1 : jTextOf a = "" := jTextOf_falsy hta
    rcases htb : truthy b with _ | _
    · rw [pyOrJ_falsy htb]
      have h2 : jTextOf b = "" := jTextOf_falsy htb
      simp [asStr, firstNonEmpty, h1, h2]
    · obtain ⟨s, rfl, hs⟩ := strOk_truthy hb htb
      rw [pyOrJ_truthy htb]
      simp [asStr, firstNonEmpty, h1, jTextOf_str, hs]
  · obtain ⟨s, rfl, hs⟩ := strOk_truthy ha hta
    rw [pyOrJ_truthy hta]
    simp [asStr, firstNonEmpty, jTextOf_str, hs]

lemma asStr_pyOr_empty {a : JsonV} (ha : strOk a = true) :
    asStr (pyOrJ a (.str "")) = some (jTextOf a) := by
  rcases hta : truthy a with _ | _
  · rw [pyOrJ_falsy hta, jTextOf_falsy hta]
    rfl
  · obtain ⟨s, rfl, -⟩ := strOk_truthy ha hta
    rw [pyOrJ_truthy hta]
    rfl

lemma norm_sev_pyOr_chain2 {a b : JsonV}
    (ha : strOk a = true) (hb : strOk b = true) :
    norm_sev (pyOrJ a (pyOrJ b (.str "Unknown")))
      = some (norm_sev_str (firstNonEmpty [jTextOf a, jTextOf b] "Unknown")) := by
  rcases hta : truthy a with _ | _
  · rw [pyOrJ_falsy hta]
    have h1 : jTextOf a = "" := jTextOf_falsy hta
    rcases htb : truthy b with _ | _
    · rw [pyOrJ_falsy htb]
      have h2 : jTextOf b = "" := jTextOf_falsy htb
      simp [norm_sev, truthy, firstNonEmpty, h1, h2]
    · obtain ⟨s, rfl, hs⟩ := strOk_truthy hb htb
      rw [pyOrJ_truthy htb]
      simp [norm_sev, truthy, firstNonEmpty, h1, jTextOf_str, hs]
  · obtain ⟨s, rfl, hs⟩ := strOk_truthy ha hta
    rw [pyOrJ_truthy hta]
    simp [norm_sev, truthy, firstNonEmpty, jTextOf_str, hs]

lemma optMapList_eq_map {α β : Type} {f : α → Option β} {g : α → β}
    {xs : List α} (h : ∀ x ∈ xs, f x = some (g x)) :
    optMapList f xs = some (xs.map g) := by
  induction xs with
  | nil => rfl
  | cons x xs ih =>
      rw [optMapList_cons_eq, h x (List.mem_cons_self _ _),
        ih (fun x' hx' => h x' (List.mem_cons_of_mem _ hx'))]
      rfl

lemma if_bool_false {A : Type} (a b : A) :
    (if false = true then a else b) = b := by simp

lemma if_bool_true {A : Type} (a b : A) :
    (if true = true then a else b) = a := by simp

lemma slitherElemContract_eq {e : JsonV} (he : elemWF e = true) :
    slitherElemContract e = some (.str (slitherSpecContract e)) := by
  cases e with
  | obj ekvs =>
      simp only [elemWF] at he
      rcases hsm : pyOrJ ((lookupLast ekvs "source_mapping").getD .null)
          (.obj []) with _ | _ | _ | _ | _ | skvs
      · rw [hsm] at he; cases he
      · rw [hsm] at he; cases he
      · rw [hsm] at he; cases he
      · rw [hsm] at he; cases he
      · rw [hsm] at he; cases he
      · rw [hsm] at he
        have he2 : (strOk ((lookupLast skvs "contract").getD .null)
            && (truthy ((lookupLast skvs "contract").getD .null)
              || (strOk ((lookupLast ekvs "contract").getD .null)
                && (truthy ((lookupLast ekvs "contract").getD .null)
                  || (match lookupLast skvs "filename" with
                      | none => true
                      | some (.str _) => true
                      | some _ => false))))) = true := he
        have hL : slitherElemContract (JsonV.obj ekvs)
            = (if truthy ((lookupLast skvs "contract").getD .null) then
                some ((lookupLast skvs "contract").getD .null)
              else
                if truthy ((lookupLast ekvs "contract").getD .null) then
                  some ((lookupLast ekvs "contract").getD .null)
                else
                  (jgetD (JsonV.obj skvs) "filename" (.str "")).bind (fun fn =>
                    (asStr fn).bind (fun fnS =>
                      some (if extract_contract_from_path fnS = ""
                        then JsonV.str "Unknown"
                        else JsonV.str (extract_contract_from_path fnS))))) := by
          unfold slitherElemContract
          rw [show jget? (JsonV.obj ekvs) "source_mapping"
              = some ((lookupLast ekvs "source_mapping").getD JsonV.null)
              from rfl]
          rw [Option.bind_eq_bind', Option.some_bind']
          rw [hsm]
          rfl
        have hR0 : slitherSpecContract (JsonV.obj ekvs)
            = (match pyOrJ ((lookupLast ekvs "source_mapping").getD .null)
                  (.obj []) with
               | JsonV.obj skvs =>
                   firstNonEmpty
                     [jTextOf ((lookupLast skvs "contract").getD .null),
                      jTextOf ((lookupLast ekvs "contract").getD .null),
                      extract_contract_from_path
                        (match lookupLast skvs "filename" with
                         | some (.str s) => s
                         | _ => "")] "Unknown"
               | _ => "Unknown") := rfl
        have hR : slitherSpecContract (JsonV.obj ekvs)
            = firstNonEmpty
                [jTextOf ((lookupLast skvs "contract").getD .null),
                 jTextOf ((lookupLast ekvs "contract").getD .null),
                 extract_contract_from_path
                   (match lookupLast skvs "filename" with
                    | some (.str s) => s
                    | _ => "")] "Unknown" := by
          rw [hR0, hsm]
        rw [hL, hR]
        rw [Bool.and_eq_true] at he2
        obtain ⟨hok1, he3⟩ := he2
        rcases ht1 : truthy ((lookupLast skvs "contract").getD .null)
            with _ | _
        · rw [ht1] at he3
          simp only [Bool.false_or, Bool.and_eq_true] at he3
          obtain ⟨hok2, he4⟩ := he3
          rw [jTextOf_falsy ht1, if_bool_false]
          rcases ht2 : truthy ((lookupLast ekvs "contract").getD .null)
              with _ | _
          · rw [ht2] at he4
            simp only [Bool.false_or] at he4
            rw [jTextOf_falsy ht2, if_bool_false]
            rw [show jgetD (JsonV.obj skvs) "filename" (.str "")
                = some ((lookupLast skvs "filename").getD (.str "")) from rfl]
            rcases hfn : lookupLast skvs "filename" with _ | fnv
            · simp [asStr, firstNonEmpty,
                show extract_contract_from_path "" = "" from by decide]
            · rw [hfn] at he4
              cases fnv with
              | str s =>
                  simp only [Option.getD_some, Option.some_bind']
                  rw [show asStr (JsonV.str s) = some s from rfl]
                  simp only [Option.some_bind']
                  by_cases hstem : extract_contract_from_path s = ""
                  · simp [firstNonEmpty, hstem]
                  · simp [firstNonEmpty, hstem]
              | null => exact Bool.noConfusion he4
              | bool b => exact Bool.noConfusion he4
              | num n => exact Bool.noConfusion he4
              | arr xs => exact Bool.noConfusion he4
              | obj kvs2 => exact Bool.noConfusion he4
          · obtain ⟨t, heq, htne⟩ := strOk_truthy hok2 ht2
            rw [heq, if_bool_true]
            simp [jTextOf_str, firstNonEmpty, htne]
        · obtain ⟨s, heq, hsne⟩ := strOk_truthy hok1 ht1
          rw [heq, if_bool_true]
          simp [jTextOf_str, firstNonEmpty, hsne]
  | null => cases he
  | bool b => cases he
  | num n => cases he
  | str s => cases he
  | arr xs => cases he

lemma parse_slither_det_eq {ts : String} {d : JsonV} (hd : detWF d = true) :
    parse_slither_det ts d = some (slitherSpecDet ts d) := by
  cases d with
  | obj kvs =>
      simp only [detWF, Bool.and_eq_true, and_assoc] at hd
      obtain ⟨h1, h2, h3, h4, h5, h6⟩ := hd
      rcases helems : pyOrJ ((lookupLast kvs "elements").getD .null) (.arr [])
          with _ | _ | _ | _ | es | _
      · rw [helems] at h6; exact Bool.noConfusion h6
      · rw [helems] at h6; exact Bool.noConfusion h6
      · rw [helems] at h6; exact Bool.noConfusion h6
      · rw [helems] at h6; exact Bool.noConfusion h6
      · rw [helems] at h6
        have hall : es.all elemWF = true := h6
        have hL : parse_slither_det ts (JsonV.obj kvs)
            = (asStr (pyOrJ ((lookupLast kvs "check").getD .null)
                  (pyOrJ ((lookupLast kvs "title").getD .null)
                    (.str "Slither finding")))).bind (fun issueS =>
                (asStr (pyOrJ ((lookupLast kvs "description").getD .null)
                    (.str ""))).bind (fun descS =>
                  (norm_sev (pyOrJ ((lookupLast kvs "impact").getD .null)
                      (pyOrJ ((lookupLast kvs "severity").getD .null)
                        (.str "Unknown")))).bind (fun sevS =>
                    (asIterList (pyOrJ ((lookupLast kvs "elements").getD .null)
                        (.arr []))).bind (fun elemList =>
                      if elemList.isEmpty then
                        some [⟨ts, "slither", "Unknown", issueS, sevS, descS⟩]
                      else
                        optMapList (fun e =>
                          (slitherElemContract e).bind (fun cV =>
                            (asStr cV).bind (fun cS =>
                              some (⟨ts, "slither", cS, issueS, sevS, descS⟩
                                : Finding)))) elemList)))) := rfl
        have hfinal : parse_slither_det ts (JsonV.obj kvs)
            = some (if es.isEmpty then
                [(⟨ts, "slither", "Unknown", slitherDetIssue kvs,
                   slitherDetSev kvs, slitherDetDesc kvs⟩ : Finding)]
              else
                es.map (fun e =>
                  (⟨ts, "slither", slitherSpecContract e, slitherDetIssue kvs,
                    slitherDetSev kvs, slitherDetDesc kvs⟩ : Finding))) := by
          rw [hL]
          rw [asStr_pyOr_chain2 h1 h2 (by decide), Option.some_bind']
          rw [asStr_pyOr_empty h5, Option.some_bind']
          rw [norm_sev_pyOr_chain2 h3 h4, Option.some_bind']
          rw [helems]
          rw [show asIterList (JsonV.arr es) = some es from rfl,
            Option.some_bind']
          rcases hemp : es.isEmpty with _ | _
          · simp only [if_bool_false]
            refine (optMapList_eq_map ?_).trans rfl
            intro e he
            have hewf : elemWF e = true := List.all_eq_true.mp hall e he
            rw [slitherElemContract_eq hewf, Option.some_bind']
            rw [show asStr (JsonV.str (slitherSpecContract e))
                = some (slitherSpecContract e) from rfl, Option.some_bind']
            rfl
          · simp only [if_bool_true]
            rfl
        have hspec : slitherSpecDet ts (JsonV.obj kvs)
            = (if es.isEmpty then
                [(⟨ts, "slither", "Unknown", slitherDetIssue kvs,
                   slitherDetSev kvs, slitherDetDesc kvs⟩ : Finding)]
              else
                es.map (fun e =>
                  (⟨ts, "slither", slitherSpecContract e, slitherDetIssue kvs,
                    slitherDetSev kvs, slitherDetDesc kvs⟩ : Finding))) := by
          show (let elems :=
              match pyOrJ ((lookupLast kvs "elements").getD .null)
                  (.arr []) with
              | JsonV.arr es => es
              | _ => []
            if elems.isEmpty then
              [(⟨ts, "slither", "Unknown", slitherDetIssue kvs,
                 slitherDetSev kvs, slitherDetDesc kvs⟩ : Finding)]
            else
              elems.map (fun e =>
                (⟨ts, "slither", slitherSpecContract e, slitherDetIssue kvs,
                  slitherDetSev kvs, slitherDetDesc kvs⟩ : Finding))) = _
          rw [helems]
        rw [hfinal, hspec]
      · rw [helems] at h6; exact Bool.noConfusion h6
  | null => exact Bool.noConfusion hd
  | bool b => exact Bool.noConfusion hd
  | num n => exact Bool.noConfusion hd
  | str s => exact Bool.noConfusion hd
  | arr xs => exact Bool.noConfusion hd

/-! ## Claim C6: the scanner-A parser refines the claim's description -/

/-- C6: on every well-shaped scanner-A report (fields strings or absent),
`parse_slither` produces exactly the findings described by the claim:
one per element with the contract recovered as the first non-empty value
of the chain source_mapping.contract, element contract, filename stem,
"Unknown"; and a single "Unknown" finding for a detector without
elements. -/
theorem C6_slither_refines_spec (ts : String) (data : JsonV)
    (hw : slitherWF data = true) :
    parse_slither ts data = some (slitherSpec ts data) := by
  cases data with
  | obj kvs =>
      simp only [slitherWF] at hw
      rcases hres : pyOrJ ((lookupLast kvs "results").getD .null) (.obj [])
          with _ | _ | _ | _ | _ | rkvs
      · rw [hres] at hw; exact Bool.noConfusion hw
      · rw [hres] at hw; exact Bool.noConfusion hw
      · rw [hres] at hw; exact Bool.noConfusion hw
      · rw [hres] at hw; exact Bool.noConfusion hw
      · rw [hres] at hw; exact Bool.noConfusion hw
      · rw [hres] at hw
        have hw2 : (match pyOrJ ((lookupLast rkvs "detectors").getD .null)
              (.arr []) with
            | JsonV.arr ds => ds.all detWF
            | _ => false) = true := hw
        rcases hdets : pyOrJ ((lookupLast rkvs "detectors").getD .null)
            (.arr []) with _ | _ | _ | _ | ds | _
        · rw [hdets] at hw2; exact Bool.noConfusion hw2
        · rw [hdets] at hw2; exact Bool.noConfusion hw2
        · rw [hdets] at hw2; exact Bool.noConfusion hw2
        · rw [hdets] at hw2; exact Bool.noConfusion hw2
        · rw [hdets] at hw2
          have hall : ds.all detWF = true := hw2
          have hL1 : parse_slither ts (JsonV.obj kvs)
              = (jget? (pyOrJ ((lookupLast kvs "results").getD .null)
                    (.obj [])) "detectors").bind (fun detsRaw =>
                  (asIterList (pyOrJ detsRaw (.arr []))).bind (fun detList =>
                    (optMapList (parse_slither_det ts) detList).bind
                      (fun rows => some rows.flatten))) := rfl
          have hR0 : slitherSpec ts (JsonV.obj kvs)
              = (match pyOrJ ((lookupLast kvs "results").getD .null)
                    (.obj []) with
                 | JsonV.obj rkvs =>
                     (match pyOrJ ((lookupLast rkvs "detectors").getD .null)
                          (.arr []) with
                      | JsonV.arr ds => (ds.map (slitherSpecDet ts)).flatten
                      | _ => [])
                 | _ => []) := rfl
          have hR1 : slitherSpec ts (JsonV.obj kvs)
              = (match pyOrJ ((lookupLast rkvs "detectors").getD .null)
                    (.arr []) with
                 | JsonV.arr ds => (ds.map (slitherSpecDet ts)).flatten
                 | _ => []) := by
            rw [hR0, hres]
          have hR2 : slitherSpec ts (JsonV.obj kvs)
              = (ds.map (slitherSpecDet ts)).flatten := by
            rw [hR1, hdets]
          rw [hL1, hres]
          have hL2 : (jget? (JsonV.obj rkvs) "detectors").bind (fun detsRaw =>
                (asIterList (pyOrJ detsRaw (.arr []))).bind (fun detList =>
                  (optMapList (parse_slither_det ts) detList).bind
                    (fun rows => some rows.flatten)))
              = (asIterList (pyOrJ ((lookupLast rkvs "detectors").getD .null)
                    (.arr []))).bind (fun detList =>
                  (optMapList (parse_slither_det ts) detList).bind
                    (fun rows => some rows.flatten)) := rfl
          rw [hL2, hdets]
          rw [show asIterList (JsonV.arr ds) = some ds from rfl,
            Option.some_bind']
          rw [optMapList_eq_map
            (fun d hd => parse_slither_det_eq (List.all_eq_true.mp hall d hd))]
          rw [Option.some_bind', hR2]
        · rw [hdets] at hw2; exact Bool.noConfusion hw2
  | null => exact Bool.noConfusion hw
  | bool b => exact Bool.noConfusion hw
  | num n => exact Bool.noConfusion hw
  | str s => exact Bool.noConfusion hw
  | arr xs => exact Bool.noConfusion hw

/-- Witness for C6: Scenario A.  One detector with impact High and one
element whose filename is Token.sol yields exactly one finding with
contract Token and severity High. -/
theorem C6_witness :
    parse_slither "t" scenarioAReport
      = some [⟨"t", "slither", "Token", "check1", "High", "desc"⟩] := by
  rw [C6_slither_refines_spec "t" scenarioAReport (by decide)]
  rfl

end SmartSecEval
